import Mathlib

/-!
Verification development for the TrendRadar content-segmentation and
multi-channel dispatch engine (`trendradar/notification/splitter.py` and
`trendradar/notification/dispatcher.py`).

Python strings are modelled as lists of Unicode code points (`List Char`);
`len(s.encode("utf-8"))` is `byteLen`.  The external collaborator
`format_title_for_platform` (from `trendradar/report/formatter`, outside the
segmentation core) is a pure rendering function per the spec's Channel
Renderer contract and is passed as a parameter `FmtTitle`.  Time is passed as
the already-formatted `strftime("%Y-%m-%d %H:%M:%S")` string.
-/

/-- A Python string: a sequence of Unicode code points. -/
abbrev Str := List Char

/-- Embed a Lean string literal as a `Str`. -/
def lit (s : String) : Str := s.data

/-- `len(s.encode("utf-8"))`: UTF-8 byte length of a Python string. -/
def byteLen (s : Str) : Nat := (s.map Char.utf8Size).sum

/-- Python `str(n)` / f-string interpolation of a non-negative integer. -/
def toStr (n : Nat) : Str := (Nat.repr n).data

/-- `u` occurs contiguously inside `b`. -/
def strInfix (u b : Str) : Prop := ∃ p s, b = p ++ u ++ s

/-! ## Report data model (splitter input, `report_data` dict and friends) -/

/-- One title entry (`title_data` dict).  Only the fields the splitter touches
are modelled; the whole entry is also handed to the external renderer. -/
structure TitleEntry where
  title : Str
  sourceName : Str
  url : Str
  mobileUrl : Str
  ranks : List Nat
  isNew : Bool
deriving DecidableEq, Repr

/-- One keyword statistic (`stat` dict: `word`, `count`, `titles`).  The RSS
stats lists share this exact shape. -/
structure WordStat where
  word : Str
  count : Nat
  titles : List TitleEntry
deriving DecidableEq, Repr

/-- One new-titles source group (`source_data` dict). -/
structure SourceGroup where
  sourceName : Str
  titles : List TitleEntry
deriving DecidableEq, Repr

/-- The `report_data` dict consumed by `split_content_into_batches`. -/
structure ReportData where
  stats : List WordStat
  newTitles : List SourceGroup
  failedIds : List Str
  totalNewCount : Nat
deriving DecidableEq, Repr

/-- Version update info (`update_info` dict). -/
structure UpdateInfo where
  currentVersion : Str
  remoteVersion : Str
deriving DecidableEq, Repr

/-- The external Channel Renderer `format_title_for_platform(platform,
title_data, show_source)`.  Its source lives outside the segmentation core;
per the spec it is a pure function from a structured unit to marked-up text. -/
abbrev FmtTitle := String → TitleEntry → Bool → Str

/-! ## Per-format string constants (`splitter.py` lines 80-136, 183-244,
347-368, 378-421, 568-599, 659-669, 875-918) -/

/-- `base_header` (lines 80-95). -/
def baseHeader (ft : String) (totalTitles : Nat) (now : Str) : Str :=
  if ft = "wework" ∨ ft = "bark" then
    lit "**总新闻数：** " ++ toStr totalTitles ++ lit "\n\n\n\n"
  else if ft = "telegram" then
    lit "总新闻数： " ++ toStr totalTitles ++ lit "\n\n"
  else if ft = "ntfy" then
    lit "**总新闻数：** " ++ toStr totalTitles ++ lit "\n\n"
  else if ft = "feishu" then []
  else if ft = "dingtalk" then
    lit "**总新闻数：** " ++ toStr totalTitles ++ lit "\n\n" ++
    lit "**时间：** " ++ now ++ lit "\n\n" ++
    lit "**类型：** 热点分析报告\n\n" ++ lit "---\n\n"
  else if ft = "slack" then
    lit "*总新闻数：* " ++ toStr totalTitles ++ lit "\n\n"
  else []

/-- `base_footer` (lines 97-121). -/
def baseFooter (ft : String) (now : Str) (upd : Option UpdateInfo) : Str :=
  if ft = "wework" ∨ ft = "bark" then
    lit "\n\n\n> 更新时间：" ++ now ++
    (match upd with
     | some u => lit "\n> TrendRadar 发现新版本 **" ++ u.remoteVersion ++
                 lit "**，当前 **" ++ u.currentVersion ++ lit "**"
     | none => [])
  else if ft = "telegram" then
    lit "\n\n更新时间：" ++ now ++
    (match upd with
     | some u => lit "\nTrendRadar 发现新版本 " ++ u.remoteVersion ++
                 lit "，当前 " ++ u.currentVersion
     | none => [])
  else if ft = "ntfy" then
    lit "\n\n> 更新时间：" ++ now ++
    (match upd with
     | some u => lit "\n> TrendRadar 发现新版本 **" ++ u.remoteVersion ++
                 lit "**，当前 **" ++ u.currentVersion ++ lit "**"
     | none => [])
  else if ft = "feishu" then
    lit "\n\n<font color=\x27grey\x27>更新时间：" ++ now ++ lit "</font>" ++
    (match upd with
     | some u => lit "\n<font color=\x27grey\x27>TrendRadar 发现新版本 " ++ u.remoteVersion ++
                 lit "，当前 " ++ u.currentVersion ++ lit "</font>"
     | none => [])
  else if ft = "dingtalk" then
    lit "\n\n> 更新时间：" ++ now ++
    (match upd with
     | some u => lit "\n> TrendRadar 发现新版本 **" ++ u.remoteVersion ++
                 lit "**，当前 **" ++ u.currentVersion ++ lit "**"
     | none => [])
  else if ft = "slack" then
    lit "\n\n_更新时间：" ++ now ++ lit "_" ++
    (match upd with
     | some u => lit "\n_TrendRadar 发现新版本 *" ++ u.remoteVersion ++
                 lit "*，当前 *" ++ u.currentVersion ++ lit "_"
     | none => [])
  else []

/-- `stats_header` (lines 123-136); computed only when `stats` is non-empty. -/
def statsHeaderStr (ft : String) : Str :=
  if ft = "wework" ∨ ft = "bark" then lit "📊 **热点词汇统计**\n\n"
  else if ft = "telegram" then lit "📊 热点词汇统计\n\n"
  else if ft = "ntfy" then lit "📊 **热点词汇统计**\n\n"
  else if ft = "feishu" then lit "📊 **热点词汇统计**\n\n"
  else if ft = "dingtalk" then lit "📊 **热点词汇统计**\n\n"
  else if ft = "slack" then lit "📊 *热点词汇统计*\n\n"
  else []

/-- `sequence_display = f"[{i + 1}/{total}]"`. -/
def seqDisplay (i total : Nat) : Str :=
  lit "[" ++ toStr (i + 1) ++ lit "/" ++ toStr total ++ lit "]"

/-- `word_header` (lines 186-244; character-identical duplicate at 689-731 for
the RSS stats section). -/
def wordHeaderStr (ft : String) (i total : Nat) (word : Str) (count : Nat) : Str :=
  let seq := seqDisplay i total
  if ft = "wework" ∨ ft = "bark" then
    if count ≥ 10 then lit "🔥 " ++ seq ++ lit " **" ++ word ++ lit "** : **" ++ toStr count ++ lit "** 条\n\n"
    else if count ≥ 5 then lit "📈 " ++ seq ++ lit " **" ++ word ++ lit "** : **" ++ toStr count ++ lit "** 条\n\n"
    else lit "📌 " ++ seq ++ lit " **" ++ word ++ lit "** : " ++ toStr count ++ lit " 条\n\n"
  else if ft = "telegram" then
    if count ≥ 10 then lit "🔥 " ++ seq ++ lit " " ++ word ++ lit " : " ++ toStr count ++ lit " 条\n\n"
    else if count ≥ 5 then lit "📈 " ++ seq ++ lit " " ++ word ++ lit " : " ++ toStr count ++ lit " 条\n\n"
    else lit "📌 " ++ seq ++ lit " " ++ word ++ lit " : " ++ toStr count ++ lit " 条\n\n"
  else if ft = "ntfy" then
    if count ≥ 10 then lit "🔥 " ++ seq ++ lit " **" ++ word ++ lit "** : **" ++ toStr count ++ lit "** 条\n\n"
    else if count ≥ 5 then lit "📈 " ++ seq ++ lit " **" ++ word ++ lit "** : **" ++ toStr count ++ lit "** 条\n\n"
    else lit "📌 " ++ seq ++ lit " **" ++ word ++ lit "** : " ++ toStr count ++ lit " 条\n\n"
  else if ft = "feishu" then
    if count ≥ 10 then
      lit "🔥 <font color=\x27grey\x27>" ++ seq ++ lit "</font> **" ++ word ++
      lit "** : <font color=\x27red\x27>" ++ toStr count ++ lit "</font> 条\n\n"
    else if count ≥ 5 then
      lit "📈 <font color=\x27grey\x27>" ++ seq ++ lit "</font> **" ++ word ++
      lit "** : <font color=\x27orange\x27>" ++ toStr count ++ lit "</font> 条\n\n"
    else
      lit "📌 <font color=\x27grey\x27>" ++ seq ++ lit "</font> **" ++ word ++
      lit "** : " ++ toStr count ++ lit " 条\n\n"
  else if ft = "dingtalk" then
    if count ≥ 10 then lit "🔥 " ++ seq ++ lit " **" ++ word ++ lit "** : **" ++ toStr count ++ lit "** 条\n\n"
    else if count ≥ 5 then lit "📈 " ++ seq ++ lit " **" ++ word ++ lit "** : **" ++ toStr count ++ lit "** 条\n\n"
    else lit "📌 " ++ seq ++ lit " **" ++ word ++ lit "** : " ++ toStr count ++ lit " 条\n\n"
  else if ft = "slack" then
    if count ≥ 10 then lit "🔥 " ++ seq ++ lit " *" ++ word ++ lit "* : *" ++ toStr count ++ lit "* 条\n\n"
    else if count ≥ 5 then lit "📈 " ++ seq ++ lit " *" ++ word ++ lit "* : *" ++ toStr count ++ lit "* 条\n\n"
    else lit "📌 " ++ seq ++ lit " *" ++ word ++ lit "* : " ++ toStr count ++ lit " 条\n\n"
  else []

/-- Renderer dispatch used in the stats sections, both for the first title and
for the remaining titles (lines 250-275, 303-328; identical duplicates at
737-750 and 774-787 in the RSS stats section): `show_source=True`, unknown
format falls back to the raw title. -/
def fmtMain (ft : String) (fmtT : FmtTitle) (e : TitleEntry) : Str :=
  if ft = "wework" ∨ ft = "bark" then fmtT "wework" e true
  else if ft = "telegram" then fmtT "telegram" e true
  else if ft = "ntfy" then fmtT "ntfy" e true
  else if ft = "feishu" then fmtT "feishu" e true
  else if ft = "dingtalk" then fmtT "dingtalk" e true
  else if ft = "slack" then fmtT "slack" e true
  else e.title

/-- `first_news_line` of a stats group (lines 247-279): empty when the group
has no titles; a trailing blank line is added when there is more than one. -/
def firstNewsLineStr (ft : String) (fmtT : FmtTitle) (s : WordStat) : Str :=
  match s.titles with
  | [] => []
  | t :: rest =>
      lit "  1. " ++ fmtMain ft fmtT t ++ lit "\n" ++
      (match rest with | [] => [] | _ => lit "\n")

/-- `news_line` for title index `j ≥ 1` of a stats group (lines 330-332). -/
def newsLineStr (ft : String) (fmtT : FmtTitle) (total j : Nat) (t : TitleEntry) : Str :=
  lit "  " ++ toStr (j + 1) ++ lit ". " ++ fmtMain ft fmtT t ++ lit "\n" ++
  (if j < total - 1 then lit "\n" else [])

/-- The remaining news lines of a stats group, in order (`range(1, len)`). -/
def statLines (ft : String) (fmtT : FmtTitle) (s : WordStat) : List Str :=
  (List.enumFrom 1 (s.titles.drop 1)).map (fun p => newsLineStr ft fmtT s.titles.length p.1 p.2)

/-- Inter-group `separator` (lines 348-361; duplicate at 804-817). -/
def sepStr (ft : String) (fsep : Str) : Str :=
  if ft = "wework" ∨ ft = "bark" then lit "\n\n\n\n"
  else if ft = "telegram" then lit "\n\n"
  else if ft = "ntfy" then lit "\n\n"
  else if ft = "feishu" then lit "\n" ++ fsep ++ lit "\n\n"
  else if ft = "dingtalk" then lit "\n---\n\n"
  else if ft = "slack" then lit "\n\n"
  else []

/-- `new_header` of the hotlist new-titles section (lines 378-392). -/
def newHeaderStr (ft : String) (totalNewCount : Nat) (fsep : Str) : Str :=
  if ft = "wework" ∨ ft = "bark" then
    lit "\n\n\n\n🆕 **本次新增热点新闻** (共 " ++ toStr totalNewCount ++ lit " 条)\n\n"
  else if ft = "telegram" then
    lit "\n\n🆕 本次新增热点新闻 (共 " ++ toStr totalNewCount ++ lit " 条)\n\n"
  else if ft = "ntfy" then
    lit "\n\n🆕 **本次新增热点新闻** (共 " ++ toStr totalNewCount ++ lit " 条)\n\n"
  else if ft = "feishu" then
    lit "\n" ++ fsep ++ lit "\n\n🆕 **本次新增热点新闻** (共 " ++ toStr totalNewCount ++ lit " 条)\n\n"
  else if ft = "dingtalk" then
    lit "\n---\n\n🆕 **本次新增热点新闻** (共 " ++ toStr totalNewCount ++ lit " 条)\n\n"
  else if ft = "slack" then
    lit "\n\n🆕 *本次新增热点新闻* (共 " ++ toStr totalNewCount ++ lit " 条)\n\n"
  else []

/-- `source_header` (lines 409-421; identical strings at 906-918 for the RSS
new-titles section, with `count = len(titles)` in both). -/
def sourceHeaderStr (ft : String) (name : Str) (count : Nat) : Str :=
  if ft = "wework" ∨ ft = "bark" then
    lit "**" ++ name ++ lit "** (" ++ toStr count ++ lit " 条):\n\n"
  else if ft = "telegram" then
    name ++ lit " (" ++ toStr count ++ lit " 条):\n\n"
  else if ft = "ntfy" then
    lit "**" ++ name ++ lit "** (" ++ toStr count ++ lit " 条):\n\n"
  else if ft = "feishu" then
    lit "**" ++ name ++ lit "** (" ++ toStr count ++ lit " 条):\n\n"
  else if ft = "dingtalk" then
    lit "**" ++ name ++ lit "** (" ++ toStr count ++ lit " 条):\n\n"
  else if ft = "slack" then
    lit "*" ++ name ++ lit "* (" ++ toStr count ++ lit " 条):\n\n"
  else []

/-- Renderer dispatch for the FIRST item of a hotlist new-titles group
(lines 427-451): the entry is copied with `is_new = False`,
`show_source=False`, and — unlike the stats sections — there is no `ntfy`
branch, so `ntfy` falls through to the raw title. -/
def fmtNewFirst (ft : String) (fmtT : FmtTitle) (e : TitleEntry) : Str :=
  let e' := { e with isNew := false }
  if ft = "wework" ∨ ft = "bark" then fmtT "wework" e' false
  else if ft = "telegram" then fmtT "telegram" e' false
  else if ft = "feishu" then fmtT "feishu" e' false
  else if ft = "dingtalk" then fmtT "dingtalk" e' false
  else if ft = "slack" then fmtT "slack" e' false
  else e'.title

/-- Renderer dispatch for the REMAINING items of a hotlist new-titles group
(lines 476-500): here only `"wework"` (not `"bark"`) is dispatched, and again
there is no `ntfy` branch. -/
def fmtNewRest (ft : String) (fmtT : FmtTitle) (e : TitleEntry) : Str :=
  let e' := { e with isNew := false }
  if ft = "wework" then fmtT "wework" e' false
  else if ft = "telegram" then fmtT "telegram" e' false
  else if ft = "feishu" then fmtT "feishu" e' false
  else if ft = "dingtalk" then fmtT "dingtalk" e' false
  else if ft = "slack" then fmtT "slack" e' false
  else e'.title

/-- `first_news_line` of a new-titles group (lines 424-453): no trailing blank
line is ever added. -/
def newFirstLineStr (ft : String) (fmtT : FmtTitle) (titles : List TitleEntry) : Str :=
  match titles with
  | [] => []
  | t :: _ => lit "  1. " ++ fmtNewFirst ft fmtT t ++ lit "\n"

/-- `news_line` for item `j ≥ 1` of a new-titles group (line 502). -/
def newLineStr (ft : String) (fmtT : FmtTitle) (j : Nat) (t : TitleEntry) : Str :=
  lit "  " ++ toStr (j + 1) ++ lit ". " ++ fmtNewRest ft fmtT t ++ lit "\n"

/-- The remaining lines of a new-titles group, in order. -/
def newLines (ft : String) (fmtT : FmtTitle) (titles : List TitleEntry) : List Str :=
  (List.enumFrom 1 (titles.drop 1)).map (fun p => newLineStr ft fmtT p.1 p.2)

/-- `failed_header` (lines 568-578): only `wework` (not `bark`), `telegram`,
`ntfy`, `feishu` and `dingtalk` have a banner; `slack` and unknown formats
get the empty string. -/
def failedHeaderStr (ft : String) (fsep : Str) : Str :=
  if ft = "wework" then lit "\n\n\n\n⚠️ **数据获取失败的平台：**\n\n"
  else if ft = "telegram" then lit "\n\n⚠️ 数据获取失败的平台：\n\n"
  else if ft = "ntfy" then lit "\n\n⚠️ **数据获取失败的平台：**\n\n"
  else if ft = "feishu" then lit "\n" ++ fsep ++ lit "\n\n⚠️ **数据获取失败的平台：**\n\n"
  else if ft = "dingtalk" then lit "\n---\n\n⚠️ **数据获取失败的平台：**\n\n"
  else []

/-- `failed_line` (lines 593-599). -/
def failedLineStr (ft : String) (idValue : Str) : Str :=
  if ft = "feishu" then lit "  • <font color=\x27red\x27>" ++ idValue ++ lit "</font>\n"
  else if ft = "dingtalk" then lit "  • **" ++ idValue ++ lit "**\n"
  else lit "  • " ++ idValue ++ lit "\n"

/-- `rss_header` of the RSS stats section (lines 659-669); note the `else`
branch makes it non-empty even for unknown formats. -/
def rssHeaderStr (ft : String) (totalItems : Nat) (fsep : Str) : Str :=
  if ft = "feishu" then
    lit "\n" ++ fsep ++ lit "\n\n📰 **RSS 订阅统计** (共 " ++ toStr totalItems ++ lit " 条)\n\n"
  else if ft = "dingtalk" then
    lit "\n---\n\n📰 **RSS 订阅统计** (共 " ++ toStr totalItems ++ lit " 条)\n\n"
  else if ft = "telegram" then
    lit "\n\n📰 RSS 订阅统计 (共 " ++ toStr totalItems ++ lit " 条)\n\n"
  else if ft = "slack" then
    lit "\n\n📰 *RSS 订阅统计* (共 " ++ toStr totalItems ++ lit " 条)\n\n"
  else
    lit "\n\n📰 **RSS 订阅统计** (共 " ++ toStr totalItems ++ lit " 条)\n\n"

/-- `new_header` of the RSS new-titles section (lines 875-887). -/
def rssNewHeaderStr (ft : String) (totalItems : Nat) (fsep : Str) : Str :=
  if ft = "wework" ∨ ft = "bark" then
    lit "\n\n\n\n🆕 **RSS 本次新增** (共 " ++ toStr totalItems ++ lit " 条)\n\n"
  else if ft = "telegram" then
    lit "\n\n🆕 RSS 本次新增 (共 " ++ toStr totalItems ++ lit " 条)\n\n"
  else if ft = "ntfy" then
    lit "\n\n🆕 **RSS 本次新增** (共 " ++ toStr totalItems ++ lit " 条)\n\n"
  else if ft = "feishu" then
    lit "\n" ++ fsep ++ lit "\n\n🆕 **RSS 本次新增** (共 " ++ toStr totalItems ++ lit " 条)\n\n"
  else if ft = "dingtalk" then
    lit "\n---\n\n🆕 **RSS 本次新增** (共 " ++ toStr totalItems ++ lit " 条)\n\n"
  else if ft = "slack" then
    lit "\n\n🆕 *RSS 本次新增* (共 " ++ toStr totalItems ++ lit " 条)\n\n"
  else []

/-- Renderer dispatch of the RSS new-titles section (lines 925-938 for the
first item, identical at 961-974 for the rest): copies with `is_new = False`,
`show_source=False`, and — unlike the hotlist new-titles section — `ntfy` IS
dispatched. -/
def fmtRssNew (ft : String) (fmtT : FmtTitle) (e : TitleEntry) : Str :=
  let e' := { e with isNew := false }
  if ft = "wework" ∨ ft = "bark" then fmtT "wework" e' false
  else if ft = "telegram" then fmtT "telegram" e' false
  else if ft = "ntfy" then fmtT "ntfy" e' false
  else if ft = "feishu" then fmtT "feishu" e' false
  else if ft = "dingtalk" then fmtT "dingtalk" e' false
  else if ft = "slack" then fmtT "slack" e' false
  else e'.title

/-- First line of an RSS new-titles group (lines 920-940). -/
def rssNewFirstLineStr (ft : String) (fmtT : FmtTitle) (titles : List TitleEntry) : Str :=
  match titles with
  | [] => []
  | t :: _ => lit "  1. " ++ fmtRssNew ft fmtT t ++ lit "\n"

/-- Line for item `j ≥ 1` of an RSS new-titles group (line 976). -/
def rssNewLineStr (ft : String) (fmtT : FmtTitle) (j : Nat) (t : TitleEntry) : Str :=
  lit "  " ++ toStr (j + 1) ++ lit ". " ++ fmtRssNew ft fmtT t ++ lit "\n"

/-- The remaining lines of an RSS new-titles group, in order. -/
def rssNewLines (ft : String) (fmtT : FmtTitle) (titles : List TitleEntry) : List Str :=
  (List.enumFrom 1 (titles.drop 1)).map (fun p => rssNewLineStr ft fmtT p.1 p.2)

/-- Mode-specific placeholder sentence of the empty-report branch
(lines 146-151). -/
def modeText (mode : String) : Str :=
  if mode = "incremental" then lit "增量模式下暂无新增匹配的热点词汇"
  else if mode = "current" then lit "当前榜单模式下暂无匹配的热点词汇"
  else lit "暂无匹配的热点词汇"

/-- `sizes = {**DEFAULT_BATCH_SIZES, **(batch_sizes or {})}; sizes.get(key, d)`:
the defaults dictionary holds every queried key, and each query's fallback
equals the default value, so the merged lookup is override-or-default. -/
def mergedSize (bs : List (String × Nat)) (key : String) (dflt : Nat) : Nat :=
  match bs.lookup key with
  | some v => v
  | none => dflt

/-- `max_bytes` resolution (lines 61-71). -/
def resolveMaxBytes (bs : List (String × Nat)) (ft : String) (mbo : Option Nat) : Nat :=
  match mbo with
  | some m => m
  | none =>
      if ft = "dingtalk" then mergedSize bs "dingtalk" 20000
      else if ft = "feishu" then mergedSize bs "feishu" 29000
      else if ft = "ntfy" then mergedSize bs "ntfy" 3800
      else mergedSize bs "default" 4000

/-! ## The segmentation state machine

`split_content_into_batches` threads `(current_batch, current_batch_has_content,
batches)` through every append.  The repeated source pattern

```
test_content = current_batch + piece
if len(test_content.encode("utf-8")) + len(base_footer.encode("utf-8")) >= max_bytes:
    if current_batch_has_content:
        batches.append(current_batch + base_footer)
    current_batch = base_header + ctx + piece
    current_batch_has_content = True
else:
    current_batch = test_content
    current_batch_has_content = True
```

is `tryAppend` below (`ctx` is the section re-entry context).  The two places
that test `< max_bytes` with the branches swapped (stats header, lines
166-177, and RSS header, lines 672-680, both with empty `ctx`) are the same
function.  The fit-checked inter-group separator (lines 363-368, 819-821) is
`trySep`, and the unconditional `current_batch += s` (lines 517, 989) is
`appendRaw`. -/

structure SplitState where
  current : Str
  hasContent : Bool
  batches : List Str
deriving DecidableEq, Repr

/-- One guarded append of `piece` with batch header `bh`, footer `f`, byte
budget `m` and section re-entry context `ctx`. -/
def tryAppend (m : Nat) (bh f ctx piece : Str) (st : SplitState) : SplitState :=
  if byteLen (st.current ++ piece) + byteLen f ≥ m then
    { current := bh ++ ctx ++ piece
      hasContent := true
      batches := if st.hasContent then st.batches ++ [st.current ++ f] else st.batches }
  else
    { current := st.current ++ piece, hasContent := true, batches := st.batches }

/-- The fit-checked inter-group separator append. -/
def trySep (m : Nat) (f sep : Str) (st : SplitState) : SplitState :=
  if byteLen (st.current ++ sep) + byteLen f < m then
    { st with current := st.current ++ sep }
  else st

/-- Unconditional `current_batch += s`. -/
def appendRaw (st : SplitState) (s : Str) : SplitState :=
  { st with current := st.current ++ s }

/-- Append each of `ps` in order via `tryAppend` with a fixed context. -/
def foldAppend (m : Nat) (bh f ctx : Str) : List Str → SplitState → SplitState
  | [], st => st
  | p :: ps, st => foldAppend m bh f ctx ps (tryAppend m bh f ctx p st)

/-! ## Section processors -/

/-- One keyword group of a stats-shaped section (lines 180-368; duplicated at
683-821 for the RSS stats section, whose code is character-identical with
`sh = rss_header`): the word header plus first news line form one atomic
placement, the remaining lines are appended one at a time with re-entry
context `sh ++ wh`, and the inter-group separator is fit-checked for all but
the last group. -/
def statGroup (m : Nat) (bh f : Str) (ft : String) (fsep : Str) (fmtT : FmtTitle)
    (sh : Str) (total : Nat) (i : Nat) (s : WordStat) (st : SplitState) : SplitState :=
  let wh := wordHeaderStr ft i total s.word s.count
  let unit := wh ++ firstNewsLineStr ft fmtT s
  let st := tryAppend m bh f sh unit st
  let st := foldAppend m bh f (sh ++ wh) (statLines ft fmtT s) st
  if i < total - 1 then trySep m f (sepStr ft fsep) st else st

/-- The enumerated group loop of a stats-shaped section. -/
def statGroups (m : Nat) (bh f : Str) (ft : String) (fsep : Str) (fmtT : FmtTitle)
    (sh : Str) (total : Nat) : List (Nat × WordStat) → SplitState → SplitState
  | [], st => st
  | (i, s) :: rest, st =>
      statGroups m bh f ft fsep fmtT sh total rest (statGroup m bh f ft fsep fmtT sh total i s st)

/-- A stats-shaped section (`process_stats_section`, lines 158-370, and
`_process_rss_stats_section`, lines 621-823, which differ only in the section
header string `sh`): early return on empty input, then the section header is
placed (the source phrases this one test as `< max_bytes` with swapped
branches), then the groups. -/
def processStatsLike (m : Nat) (bh f : Str) (ft : String) (fsep : Str) (fmtT : FmtTitle)
    (sh : Str) (stats : List WordStat) (st : SplitState) : SplitState :=
  match stats with
  | [] => st
  | _ =>
      statGroups m bh f ft fsep fmtT sh stats.length (List.enumFrom 0 stats)
        (tryAppend m bh f [] sh st)

/-- One source group of the hotlist new-titles section (lines 408-517):
source header plus first line form one atomic placement, remaining lines are
appended with re-entry context `nh ++ srch`, and a blank line is appended
unconditionally after every group (line 517). -/
def newGroup (m : Nat) (bh f : Str) (ft : String) (fmtT : FmtTitle)
    (nh : Str) (sd : SourceGroup) (st : SplitState) : SplitState :=
  let srch := sourceHeaderStr ft sd.sourceName sd.titles.length
  let unit := srch ++ newFirstLineStr ft fmtT sd.titles
  let st := tryAppend m bh f nh unit st
  let st := foldAppend m bh f (nh ++ srch) (newLines ft fmtT sd.titles) st
  appendRaw st (lit "\n")

/-- The group loop of the hotlist new-titles section. -/
def newGroups (m : Nat) (bh f : Str) (ft : String) (fmtT : FmtTitle)
    (nh : Str) : List SourceGroup → SplitState → SplitState
  | [], st => st
  | sd :: rest, st => newGroups m bh f ft fmtT nh rest (newGroup m bh f ft fmtT nh sd st)

/-- `process_new_titles_section` (lines 373-519). -/
def processNewSection (m : Nat) (bh f : Str) (ft : String) (fsep : Str) (fmtT : FmtTitle)
    (totalNewCount : Nat) (groups : List SourceGroup) (st : SplitState) : SplitState :=
  match groups with
  | [] => st
  | _ =>
      let nh := newHeaderStr ft totalNewCount fsep
      newGroups m bh f ft fmtT nh groups (tryAppend m bh f [] nh st)

/-- `_process_rss_stats_section` (lines 621-823): identical to
`process_stats_section` with `sh` the RSS banner built from
`sum(stat["count"])`. -/
def processRssStatsSection (m : Nat) (bh f : Str) (ft : String) (fsep : Str) (fmtT : FmtTitle)
    (rssStats : List WordStat) (st : SplitState) : SplitState :=
  processStatsLike m bh f ft fsep fmtT
    (rssHeaderStr ft ((rssStats.map (fun s => s.count)).sum) fsep) rssStats st

/-- Insertion-ordered grouping of one title into the `source_map` dict
(lines 860-866; Python dicts preserve insertion order). -/
def insertSource (m : List (Str × List TitleEntry)) (name : Str) (t : TitleEntry) :
    List (Str × List TitleEntry) :=
  match m with
  | [] => [(name, [t])]
  | (n, ts) :: rest =>
      if n = name then (n, ts ++ [t]) :: rest else (n, ts) :: insertSource rest name t

/-- Flatten the RSS new-titles keyword stats into the per-source `source_map`
(lines 860-866).  Every entry carries `source_name`, so the dict-get default
is never taken. -/
def groupBySource (stats : List WordStat) : List (Str × List TitleEntry) :=
  stats.foldl (fun m s => s.titles.foldl (fun m t => insertSource m t.sourceName t) m) []

/-- One source group of the RSS new-titles section (lines 902-989): same
shape as `newGroup` but with the RSS renderer dispatch and the RSS section
header as re-entry context; the trailing blank line is again unconditional. -/
def rssNewGroup (m : Nat) (bh f : Str) (ft : String) (fmtT : FmtTitle)
    (nh : Str) (g : Str × List TitleEntry) (st : SplitState) : SplitState :=
  let srch := sourceHeaderStr ft g.1 g.2.length
  let unit := srch ++ rssNewFirstLineStr ft fmtT g.2
  let st := tryAppend m bh f nh unit st
  let st := foldAppend m bh f (nh ++ srch) (rssNewLines ft fmtT g.2) st
  appendRaw st (lit "\n")

/-- The group loop of the RSS new-titles section. -/
def rssNewGroups (m : Nat) (bh f : Str) (ft : String) (fmtT : FmtTitle)
    (nh : Str) : List (Str × List TitleEntry) → SplitState → SplitState
  | [], st => st
  | g :: rest, st => rssNewGroups m bh f ft fmtT nh rest (rssNewGroup m bh f ft fmtT nh g st)

/-- `_process_rss_new_titles_section` (lines 826-991). -/
def processRssNewSection (m : Nat) (bh f : Str) (ft : String) (fsep : Str) (fmtT : FmtTitle)
    (rssNewStats : List WordStat) (st : SplitState) : SplitState :=
  match rssNewStats with
  | [] => st
  | _ =>
      match groupBySource rssNewStats with
      | [] => st
      | _ =>
          let sourceMap := groupBySource rssNewStats
          let total := (sourceMap.map (fun g => g.2.length)).sum
          let nh := rssNewHeaderStr ft total fsep
          rssNewGroups m bh f ft fmtT nh sourceMap (tryAppend m bh f [] nh st)

/-- The failed-sources block (lines 567-612). -/
def processFailedSection (m : Nat) (bh f : Str) (ft : String) (fsep : Str)
    (failed : List Str) (st : SplitState) : SplitState :=
  match failed with
  | [] => st
  | _ =>
      let fh := failedHeaderStr ft fsep
      foldAppend m bh f fh (failed.map (failedLineStr ft)) (tryAppend m bh f [] fh st)

/-- Final flush (lines 614-616). -/
def splitFinalize (f : Str) (st : SplitState) : List Str :=
  if st.hasContent then st.batches ++ [st.current ++ f] else st.batches

/-- `split_content_into_batches` (lines 24-618).  `now` is the formatted
current time (`get_time_func`/`datetime.now` composed with `strftime`);
`rssItems`/`rssNewItems` model the optional lists with `None ≡ []` (both the
outer truthiness tests and the sections' own emptiness checks skip empty
lists).  The `timezone` parameter is dropped: it is only passed on to
`_format_rss_item_line`, which no embedded path calls. -/
def splitContentIntoBatches (fmtT : FmtTitle) (report : ReportData) (ft : String)
    (upd : Option UpdateInfo) (mbo : Option Nat) (mode : String)
    (bs : List (String × Nat)) (fsep : Str) (rev : Bool) (now : Str)
    (rssItems rssNewItems : List WordStat) : List Str :=
  let m := resolveMaxBytes bs ft mbo
  let totalTitles := ((report.stats.filter (fun s => 0 < s.count)).map
    (fun s => s.titles.length)).sum
  let bh := baseHeader ft totalTitles now
  let f := baseFooter ft now upd
  let sh := match report.stats with | [] => [] | _ => statsHeaderStr ft
  let st : SplitState := ⟨bh, false, []⟩
  match report.stats, report.newTitles, report.failedIds with
  | [], [], [] => [bh ++ lit "📭 " ++ modeText mode ++ lit "\n\n" ++ f]
  | _, _, _ =>
      let st :=
        if rev then
          let st := processNewSection m bh f ft fsep fmtT report.totalNewCount report.newTitles st
          let st := if rssNewItems ≠ [] then processRssNewSection m bh f ft fsep fmtT rssNewItems st
            else st
          let st := processStatsLike m bh f ft fsep fmtT sh report.stats st
          if rssItems ≠ [] then processRssStatsSection m bh f ft fsep fmtT rssItems st else st
        else
          let st := processStatsLike m bh f ft fsep fmtT sh report.stats st
          let st := if rssItems ≠ [] then processRssStatsSection m bh f ft fsep fmtT rssItems st
            else st
          let st := processNewSection m bh f ft fsep fmtT report.totalNewCount report.newTitles st
          if rssNewItems ≠ [] then processRssNewSection m bh f ft fsep fmtT rssNewItems st else st
      splitFinalize f (processFailedSection m bh f ft fsep report.failedIds st)

/-! ## Multi-account resolution and dispatch (`dispatcher.py`)

The account helpers (`parse_multi_account_config`, `limit_accounts`,
`validate_paired_configs`, `get_account_at_index`) live in
`trendradar/core/config`, whose source is not part of the segmentation and
dispatch core; they are modelled from the spec (§4.3).  The per-channel
transports (`send_to_feishu`, …, from `notification/senders`) are external
collaborators with the spec contract `send(batches) -> success` and are
passed in as boolean-valued functions. -/

/-- Strip leading and trailing whitespace from a token (Python `str.strip()`). -/
def trimStr (s : Str) : Str :=
  ((s.dropWhile Char.isWhitespace).reverse.dropWhile Char.isWhitespace).reverse

/-- Split a raw configuration string on `;`. -/
def splitSemi : Str → List Str
  | [] => [[]]
  | c :: rest =>
      let r := splitSemi rest
      if c = ';' then [] :: r
      else (c :: r.headI) :: r.tail

/-- Modelled from the spec: `parseAccounts(raw)` — split `raw` on `;`, trim
each token, discard empty tokens, preserve order
(`parse_multi_account_config` in `trendradar/core/config`, not under the
sources of this core). -/
def parseAccounts (raw : Str) : List Str :=
  ((splitSemi raw).map trimStr).filter (fun t => t ≠ [])

/-- Modelled from the spec: `limit(accounts, cap, channelLabel)` — truncate to
the first `cap` entries when over the cap, otherwise unchanged; the warning is
a log effect (`limit_accounts` in `trendradar/core/config`). -/
def limitAccounts (accounts : List Str) (cap : Nat) : List Str :=
  if accounts.length > cap then accounts.take cap else accounts

/-- Modelled from the spec: `validatePaired` for two required lists — valid
iff both lists have identical length `> 0`, in which case `count` is that
common length; `(false, 0)` otherwise (`validate_paired_configs` in
`trendradar/core/config`). -/
def validatePaired2 (a b : List Str) : Bool × Nat :=
  if a.length = b.length ∧ 0 < a.length then (true, a.length) else (false, 0)

/-- `account_label = f"账号{i+1}" if n > 1 else ""` (lines 175, 308, 362). -/
def accountLabel (i n : Nat) : Str :=
  if n > 1 then lit "账号" ++ toStr (i + 1) else []

/-- The channel configuration fields read by `dispatch_all` (the ambient
`config` dict; absent keys are the empty string). -/
structure NotifyConfig where
  feishuWebhookUrl : Str
  dingtalkWebhookUrl : Str
  weworkWebhookUrl : Str
  telegramBotToken : Str
  telegramChatId : Str
  ntfyServerUrl : Str
  ntfyTopic : Str
  ntfyToken : Str
  barkUrl : Str
  slackWebhookUrl : Str
  emailFrom : Str
  emailPassword : Str
  emailTo : Str
  maxAccounts : Nat
deriving DecidableEq, Repr

/-- The external per-channel transports (`notification/senders`): each takes
the account credential(s) and the account label and reports success.  The
report payload, fixed for the whole dispatch cycle, is absorbed into the
function. -/
structure Transports where
  sendFeishu : Str → Str → Bool
  sendDingtalk : Str → Str → Bool
  sendWework : Str → Str → Bool
  sendTelegram : Str → Str → Str → Bool
  sendNtfy : Str → Str → Str → Str → Bool
  sendBark : Str → Str → Bool
  sendSlack : Str → Str → Bool
  sendEmail : Bool

/-- `_send_to_multi_accounts` (lines 147-179): parse, early-false on no
accounts, cap, then try every non-empty account and OR the outcomes
(`any(results) if results else False`). -/
def sendToMultiAccounts (maxAcc : Nat) (configValue : Str) (send : Str → Str → Bool) : Bool :=
  let accounts := parseAccounts configValue
  if accounts = [] then false
  else
    let accounts := limitAccounts accounts maxAcc
    let results := (List.enumFrom 0 accounts).filterMap (fun p =>
      if p.2 ≠ [] then some (send p.2 (accountLabel p.1 accounts.length)) else none)
    results.any id

/-- `_send_telegram` (lines 273-326): parse both lists, fail on either being
empty, paired validation, cap the tokens and cut the chat ids to match, then
try each pair and OR the outcomes. -/
def sendTelegramChannel (maxAcc : Nat) (botTokenCfg chatIdCfg : Str)
    (send : Str → Str → Str → Bool) : Bool :=
  let tokens := parseAccounts botTokenCfg
  let chatIds := parseAccounts chatIdCfg
  if tokens = [] ∨ chatIds = [] then false
  else
    let vc := validatePaired2 tokens chatIds
    if ¬ vc.1 ∨ vc.2 = 0 then false
    else
      let tokens := limitAccounts tokens maxAcc
      let chatIds := chatIds.take tokens.length
      let results := (List.range tokens.length).filterMap (fun i =>
        let token := tokens.getD i []
        let chatId := chatIds.getD i []
        if token ≠ [] ∧ chatId ≠ [] then some (send token chatId (accountLabel i tokens.length))
        else none)
      results.any id

/-- `_send_ntfy` (lines 328-380): topics (and optional tokens) are parsed,
an inconsistent token count skips the channel, topics are capped, and each
topic is tried with its token (empty when none configured). -/
def sendNtfyChannel (maxAcc : Nat) (serverUrl topicCfg tokenCfg : Str)
    (send : Str → Str → Str → Str → Bool) : Bool :=
  let topics := parseAccounts topicCfg
  let tokens := parseAccounts tokenCfg
  if serverUrl = [] ∨ topics = [] then false
  else if tokens ≠ [] ∧ tokens.length ≠ topics.length then false
  else
    let topics := limitAccounts topics maxAcc
    let tokens := if tokens ≠ [] then tokens.take topics.length else tokens
    let results := (List.enumFrom 0 topics).filterMap (fun p =>
      if p.2 ≠ [] then
        some (send serverUrl p.2 (if tokens ≠ [] then tokens.getD p.1 [] else [])
          (accountLabel p.1 topics.length))
      else none)
    results.any id

/-- `dispatch_all` (lines 66-145): each channel is attempted, and keyed into
the result dict, exactly when its minimum configuration is truthy (a
non-empty string; for telegram/ntfy both halves of the pair, for email the
whole triple); the result is the insertion-ordered mapping. -/
def dispatchAll (cfg : NotifyConfig) (t : Transports) : List (String × Bool) :=
  (if cfg.feishuWebhookUrl ≠ [] then
    [("feishu", sendToMultiAccounts cfg.maxAccounts cfg.feishuWebhookUrl t.sendFeishu)]
   else []) ++
  (if cfg.dingtalkWebhookUrl ≠ [] then
    [("dingtalk", sendToMultiAccounts cfg.maxAccounts cfg.dingtalkWebhookUrl t.sendDingtalk)]
   else []) ++
  (if cfg.weworkWebhookUrl ≠ [] then
    [("wework", sendToMultiAccounts cfg.maxAccounts cfg.weworkWebhookUrl t.sendWework)]
   else []) ++
  (if cfg.telegramBotToken ≠ [] ∧ cfg.telegramChatId ≠ [] then
    [("telegram", sendTelegramChannel cfg.maxAccounts cfg.telegramBotToken cfg.telegramChatId
        t.sendTelegram)]
   else []) ++
  (if cfg.ntfyServerUrl ≠ [] ∧ cfg.ntfyTopic ≠ [] then
    [("ntfy", sendNtfyChannel cfg.maxAccounts cfg.ntfyServerUrl cfg.ntfyTopic cfg.ntfyToken
        t.sendNtfy)]
   else []) ++
  (if cfg.barkUrl ≠ [] then
    [("bark", sendToMultiAccounts cfg.maxAccounts cfg.barkUrl t.sendBark)]
   else []) ++
  (if cfg.slackWebhookUrl ≠ [] then
    [("slack", sendToMultiAccounts cfg.maxAccounts cfg.slackWebhookUrl t.sendSlack)]
   else []) ++
  (if cfg.emailFrom ≠ [] ∧ cfg.emailPassword ≠ [] ∧ cfg.emailTo ≠ [] then
    [("email", t.sendEmail)]
   else [])

/-- The per-account batch loop of `_send_rss_feishu` (lines 570-601): inside
the `try`, batches are posted in order and a failed post raises, aborting the
rest; the pair returned is (the batches actually posted, whether the account
succeeded). -/
def sendBatchesSeq (post : Str → Bool) : List Str → List Str × Bool
  | [] => ([], true)
  | b :: bs =>
      if post b then
        let r := sendBatchesSeq post bs
        (b :: r.1, r.2)
      else ([b], false)

/-- `_send_rss_feishu` (lines 546-603): each non-empty webhook account runs
the batch loop independently; the channel result ORs the account outcomes. -/
def sendRssFeishuChannel (maxAcc : Nat) (webhookCfg : Str) (batches : List Str)
    (post : Str → Str → Bool) : Bool :=
  let webhooks := limitAccounts (parseAccounts webhookCfg) maxAcc
  let results := webhooks.filterMap (fun w =>
    if w ≠ [] then some (sendBatchesSeq (post w) batches).2 else none)
  results.any id

/-! ## Derived notions used by the specification claims -/

/-- The atomic unit of a stats group: the word header concatenated with its
first rendered news line (the `word_with_first_news` of lines 282, 757). -/
def statUnitStr (ft : String) (fmtT : FmtTitle) (total i : Nat) (s : WordStat) : Str :=
  wordHeaderStr ft i total s.word s.count ++ firstNewsLineStr ft fmtT s

/-- The atomic unit of a hotlist new-titles group: the source header
concatenated with its first rendered line (`source_with_first_news`,
line 456). -/
def newUnitStr (ft : String) (fmtT : FmtTitle) (sd : SourceGroup) : Str :=
  sourceHeaderStr ft sd.sourceName sd.titles.length ++ newFirstLineStr ft fmtT sd.titles

/-- The atomic unit of an RSS new-titles group (`source_with_first_news`,
line 943). -/
def rssNewUnitStr (ft : String) (fmtT : FmtTitle) (g : Str × List TitleEntry) : Str :=
  sourceHeaderStr ft g.1 g.2.length ++ rssNewFirstLineStr ft fmtT g.2

/-- All atomic units of one splitter input, across every section. -/
def atomicUnits (ft : String) (fmtT : FmtTitle) (report : ReportData)
    (rssItems rssNewItems : List WordStat) : List Str :=
  (List.enumFrom 0 report.stats).map (fun p => statUnitStr ft fmtT report.stats.length p.1 p.2) ++
  (List.enumFrom 0 rssItems).map (fun p => statUnitStr ft fmtT rssItems.length p.1 p.2) ++
  report.newTitles.map (fun sd => newUnitStr ft fmtT sd) ++
  (groupBySource rssNewItems).map (fun g => rssNewUnitStr ft fmtT g)

/-- Every placement of the stats-shaped section with header `sh` fits into a
fresh batch: the banner, each atomic unit, and each later news line, together
with the batch header, re-entry context and footer, all pass the strict fit
test. -/
def freshStats (m : Nat) (bh f : Str) (ft : String) (fmtT : FmtTitle) (sh : Str)
    (stats : List WordStat) : Prop :=
  (stats ≠ [] → byteLen (bh ++ sh) + byteLen f < m) ∧
  (∀ p ∈ List.enumFrom 0 stats,
    byteLen (bh ++ sh ++ statUnitStr ft fmtT stats.length p.1 p.2) + byteLen f < m) ∧
  (∀ p ∈ List.enumFrom 0 stats, ∀ l ∈ statLines ft fmtT p.2,
    byteLen (bh ++ (sh ++ wordHeaderStr ft p.1 stats.length p.2.word p.2.count) ++ l) +
      byteLen f < m)

/-- Every placement of the hotlist new-titles section fits into a fresh
batch. -/
def freshNew (m : Nat) (bh f : Str) (ft : String) (fsep : Str) (fmtT : FmtTitle)
    (tnc : Nat) (groups : List SourceGroup) : Prop :=
  (groups ≠ [] → byteLen (bh ++ newHeaderStr ft tnc fsep) + byteLen f < m) ∧
  (∀ sd ∈ groups,
    byteLen (bh ++ newHeaderStr ft tnc fsep ++ newUnitStr ft fmtT sd) + byteLen f < m) ∧
  (∀ sd ∈ groups, ∀ l ∈ newLines ft fmtT sd.titles,
    byteLen (bh ++ (newHeaderStr ft tnc fsep ++ sourceHeaderStr ft sd.sourceName sd.titles.length)
      ++ l) + byteLen f < m)

/-- Every placement of the RSS new-titles section fits into a fresh batch. -/
def freshRssNew (m : Nat) (bh f : Str) (ft : String) (fsep : Str) (fmtT : FmtTitle)
    (rssNewStats : List WordStat) : Prop :=
  (groupBySource rssNewStats ≠ [] →
    byteLen (bh ++ rssNewHeaderStr ft
      (((groupBySource rssNewStats).map (fun g => g.2.length)).sum) fsep) + byteLen f < m) ∧
  (∀ g ∈ groupBySource rssNewStats,
    byteLen (bh ++ rssNewHeaderStr ft
      (((groupBySource rssNewStats).map (fun g => g.2.length)).sum) fsep ++
      rssNewUnitStr ft fmtT g) + byteLen f < m) ∧
  (∀ g ∈ groupBySource rssNewStats, ∀ l ∈ rssNewLines ft fmtT g.2,
    byteLen (bh ++ (rssNewHeaderStr ft
      (((groupBySource rssNewStats).map (fun g => g.2.length)).sum) fsep ++
      sourceHeaderStr ft g.1 g.2.length) ++ l) + byteLen f < m)

/-- Every placement of the failed-sources block fits into a fresh batch. -/
def freshFailed (m : Nat) (bh f : Str) (ft : String) (fsep : Str)
    (failed : List Str) : Prop :=
  (failed ≠ [] → byteLen (bh ++ failedHeaderStr ft fsep) + byteLen f < m) ∧
  (∀ i ∈ failed, byteLen (bh ++ failedHeaderStr ft fsep ++ failedLineStr ft i) + byteLen f < m)

/-- Every content placement of a whole splitter input fits into a fresh
batch (including the empty-report placeholder batch). -/
def freshAll (m : Nat) (bh f : Str) (ft : String) (fsep : Str) (fmtT : FmtTitle)
    (mode : String) (report : ReportData) (rssItems rssNewItems : List WordStat) : Prop :=
  (report.stats = [] ∧ report.newTitles = [] ∧ report.failedIds = [] →
    byteLen (bh ++ lit "📭 " ++ modeText mode ++ lit "\n\n" ++ f) ≤ m) ∧
  freshStats m bh f ft fmtT (match report.stats with | [] => [] | _ => statsHeaderStr ft)
    report.stats ∧
  freshStats m bh f ft fmtT (rssHeaderStr ft ((rssItems.map (fun s => s.count)).sum) fsep)
    rssItems ∧
  freshNew m bh f ft fsep fmtT report.totalNewCount report.newTitles ∧
  freshRssNew m bh f ft fsep fmtT rssNewItems ∧
  freshFailed m bh f ft fsep report.failedIds

/-- The state invariant of the byte-bound argument: the working batch (when
it has content) still fits together with the footer, and every finished batch
is within the budget. -/
def InvPS (m : Nat) (f : Str) (st : SplitState) : Prop :=
  (st.hasContent = true → byteLen st.current + byteLen f ≤ m) ∧
  ∀ b ∈ st.batches, byteLen b ≤ m

/-- Modelled from the spec: the section rendering order — default
`[hotlist-stats, rss-stats, hotlist-new, rss-new, failed-sources]`, reversed
`[hotlist-new, rss-new, hotlist-stats, rss-stats, failed-sources]`. -/
def sectionOrder (rev : Bool) : List String :=
  if rev then ["hotlist-new", "rss-new", "hotlist-stats", "rss-stats", "failed-sources"]
  else ["hotlist-stats", "rss-stats", "hotlist-new", "rss-new", "failed-sources"]

/-- Run the section named by `tag` (the RSS sections run only when their item
list is truthy, mirroring the outer `if rss_items:` / `if rss_new_items:`
gates of lines 529, 539, 551, 561). -/
def applySection (fmtT : FmtTitle) (report : ReportData) (ft : String) (fsep : Str)
    (rssItems rssNewItems : List WordStat) (m : Nat) (bh f sh : Str)
    (tag : String) (st : SplitState) : SplitState :=
  if tag = "hotlist-stats" then processStatsLike m bh f ft fsep fmtT sh report.stats st
  else if tag = "rss-stats" then
    if rssItems ≠ [] then processRssStatsSection m bh f ft fsep fmtT rssItems st else st
  else if tag = "hotlist-new" then
    processNewSection m bh f ft fsep fmtT report.totalNewCount report.newTitles st
  else if tag = "rss-new" then
    if rssNewItems ≠ [] then processRssNewSection m bh f ft fsep fmtT rssNewItems st else st
  else if tag = "failed-sources" then processFailedSection m bh f ft fsep report.failedIds st
  else st

/-- Modelled from the spec: presence of minimum required configuration for a
channel — a single credential field, a matched pair, or the email triple. -/
def channelGate (cfg : NotifyConfig) (ch : String) : Prop :=
  (cfg.feishuWebhookUrl ≠ [] ∧ ch = "feishu") ∨
  (cfg.dingtalkWebhookUrl ≠ [] ∧ ch = "dingtalk") ∨
  (cfg.weworkWebhookUrl ≠ [] ∧ ch = "wework") ∨
  ((cfg.telegramBotToken ≠ [] ∧ cfg.telegramChatId ≠ []) ∧ ch = "telegram") ∨
  ((cfg.ntfyServerUrl ≠ [] ∧ cfg.ntfyTopic ≠ []) ∧ ch = "ntfy") ∨
  (cfg.barkUrl ≠ [] ∧ ch = "bark") ∨
  (cfg.slackWebhookUrl ≠ [] ∧ ch = "slack") ∨
  ((cfg.emailFrom ≠ [] ∧ cfg.emailPassword ≠ [] ∧ cfg.emailTo ≠ []) ∧ ch = "email")

/-- The accounts a multi-account channel actually iterates over. -/
def attemptedAccounts (maxAcc : Nat) (configValue : Str) : List Str :=
  limitAccounts (parseAccounts configValue) maxAcc

/-! ## Concrete inputs for witnesses and counterexamples -/

/-- A renderer instance for concrete runs (the concrete inputs below use
unknown format types, whose rendering never calls the external renderer). -/
def fmtNone : FmtTitle := fun _ _ _ => []

def teAAA : TitleEntry := ⟨lit "AAA", lit "s", [], [], [], false⟩

def teB15 : TitleEntry := ⟨lit "BBBBBBBBBBBBBBB", lit "s", [], [], [], false⟩

def teA12 : TitleEntry := ⟨lit "AAAAAAAAAAAA", lit "s", [], [], [], false⟩

/-- One stats group whose second news line alone overflows a 20-byte budget. -/
def reportOversizeItem : ReportData := ⟨[⟨lit "w", 2, [teAAA, teB15]⟩], [], [], 0⟩

/-- One new-titles group whose trailing blank-line separator no longer fits a
10-byte budget. -/
def reportSepOverflow : ReportData := ⟨[], [⟨lit "s", [teAAA]⟩], [], 1⟩

/-- One stats group whose atomic unit alone overflows a 10-byte budget. -/
def reportOversizeUnit : ReportData := ⟨[⟨lit "w", 1, [teA12]⟩], [], [], 0⟩

/-- A small report every placement of which fits a 50-byte budget. -/
def reportTiny : ReportData := ⟨[⟨lit "w", 1, [teAAA]⟩], [], [], 0⟩

def cfgTelegramMismatch : NotifyConfig :=
  ⟨[], [], [], lit "t1;t2;t3", lit "c1;c2", [], [], [], [], [], [], [], [], 3⟩

/-- Transports that succeed unconditionally. -/
def tAllTrue : Transports :=
  ⟨fun _ _ => true, fun _ _ => true, fun _ _ => true, fun _ _ _ => true,
   fun _ _ _ _ => true, fun _ _ => true, fun _ _ => true, true⟩

/-! ## Piece-level mirror of the splitter (for the reconstruction property)

`pSplit` runs the same greedy algorithm but keeps each batch as the list of
appended pieces instead of their concatenation; `pjoin` recovers the string
form.  Content pieces (atomic units, later item lines, failed lines) are
tagged with their section, group and item position; banners, re-entry
contexts, separators, headers and footers are `frame` pieces.  Sections are
numbered 0 = hotlist stats, 1 = RSS stats, 2 = hotlist new, 3 = RSS new. -/

inductive PTag where
  | frame : PTag
  | unitPiece : Nat → Nat → PTag
  | itemPiece : Nat → Nat → Nat → PTag
  | failPiece : Nat → PTag
deriving DecidableEq, Repr

structure Piece where
  tag : PTag
  str : Str
deriving DecidableEq, Repr

/-- A frame (non-content) piece. -/
def pf (s : Str) : Piece := ⟨PTag.frame, s⟩

def pjoin (l : List Piece) : Str := (l.map Piece.str).flatten

def isContent (p : Piece) : Bool :=
  match p.tag with
  | PTag.frame => false
  | _ => true

structure PState where
  current : List Piece
  hasContent : Bool
  batches : List (List Piece)
deriving Repr

/-- Piece projection to the string-level state. -/
def toS (st : PState) : SplitState :=
  ⟨pjoin st.current, st.hasContent, st.batches.map pjoin⟩

def pTryAppend (m : Nat) (bh f : Str) (ctx : List Piece) (p : Piece) (st : PState) : PState :=
  if byteLen (pjoin st.current ++ p.str) + byteLen f ≥ m then
    { current := pf bh :: (ctx ++ [p])
      hasContent := true
      batches := if st.hasContent then st.batches ++ [st.current ++ [pf f]] else st.batches }
  else
    { current := st.current ++ [p], hasContent := true, batches := st.batches }

def pTrySep (m : Nat) (f sep : Str) (st : PState) : PState :=
  if byteLen (pjoin st.current ++ sep) + byteLen f < m then
    { st with current := st.current ++ [pf sep] }
  else st

def pAppendRaw (st : PState) (s : Str) : PState :=
  { st with current := st.current ++ [pf s] }

def pFoldAppend (m : Nat) (bh f : Str) (ctx : List Piece) : List Piece → PState → PState
  | [], st => st
  | p :: ps, st => pFoldAppend m bh f ctx ps (pTryAppend m bh f ctx p st)

/-- The tagged item-line pieces of a stats group. -/
def statLinePieces (ft : String) (fmtT : FmtTitle) (sec total i : Nat) (s : WordStat) :
    List Piece :=
  (List.enumFrom 1 (s.titles.drop 1)).map (fun q =>
    ⟨PTag.itemPiece sec i q.1, newsLineStr ft fmtT s.titles.length q.1 q.2⟩)

def pStatGroup (m : Nat) (bh f : Str) (ft : String) (fsep : Str) (fmtT : FmtTitle)
    (sh : Str) (sec total i : Nat) (s : WordStat) (st : PState) : PState :=
  let st := pTryAppend m bh f [pf sh] ⟨PTag.unitPiece sec i, statUnitStr ft fmtT total i s⟩ st
  let st := pFoldAppend m bh f [pf sh, pf (wordHeaderStr ft i total s.word s.count)]
    (statLinePieces ft fmtT sec total i s) st
  if i < total - 1 then pTrySep m f (sepStr ft fsep) st else st

def pStatGroups (m : Nat) (bh f : Str) (ft : String) (fsep : Str) (fmtT : FmtTitle)
    (sh : Str) (sec total : Nat) : List (Nat × WordStat) → PState → PState
  | [], st => st
  | (i, s) :: rest, st =>
      pStatGroups m bh f ft fsep fmtT sh sec total rest
        (pStatGroup m bh f ft fsep fmtT sh sec total i s st)

def pProcessStatsLike (m : Nat) (bh f : Str) (ft : String) (fsep : Str) (fmtT : FmtTitle)
    (sh : Str) (sec : Nat) (stats : List WordStat) (st : PState) : PState :=
  match stats with
  | [] => st
  | _ =>
      pStatGroups m bh f ft fsep fmtT sh sec stats.length (List.enumFrom 0 stats)
        (pTryAppend m bh f [] (pf sh) st)

/-- The tagged item-line pieces of a hotlist new-titles group. -/
def newLinePieces (ft : String) (fmtT : FmtTitle) (sec i : Nat) (titles : List TitleEntry) :
    List Piece :=
  (List.enumFrom 1 (titles.drop 1)).map (fun q =>
    ⟨PTag.itemPiece sec i q.1, newLineStr ft fmtT q.1 q.2⟩)

def pNewGroup (m : Nat) (bh f : Str) (ft : String) (fmtT : FmtTitle) (nh : Str)
    (sec i : Nat) (sd : SourceGroup) (st : PState) : PState :=
  let st := pTryAppend m bh f [pf nh] ⟨PTag.unitPiece sec i, newUnitStr ft fmtT sd⟩ st
  let st := pFoldAppend m bh f
    [pf nh, pf (sourceHeaderStr ft sd.sourceName sd.titles.length)]
    (newLinePieces ft fmtT sec i sd.titles) st
  pAppendRaw st (lit "\n")

def pNewGroups (m : Nat) (bh f : Str) (ft : String) (fmtT : FmtTitle) (nh : Str)
    (sec : Nat) : List (Nat × SourceGroup) → PState → PState
  | [], st => st
  | (i, sd) :: rest, st =>
      pNewGroups m bh f ft fmtT nh sec rest (pNewGroup m bh f ft fmtT nh sec i sd st)

def pProcessNewSection (m : Nat) (bh f : Str) (ft : String) (fsep : Str) (fmtT : FmtTitle)
    (tnc : Nat) (sec : Nat) (groups : List SourceGroup) (st : PState) : PState :=
  match groups with
  | [] => st
  | _ =>
      let nh := newHeaderStr ft tnc fsep
      pNewGroups m bh f ft fmtT nh sec (List.enumFrom 0 groups)
        (pTryAppend m bh f [] (pf nh) st)

/-- The tagged item-line pieces of an RSS new-titles group. -/
def rssNewLinePieces (ft : String) (fmtT : FmtTitle) (sec i : Nat)
    (titles : List TitleEntry) : List Piece :=
  (List.enumFrom 1 (titles.drop 1)).map (fun q =>
    ⟨PTag.itemPiece sec i q.1, rssNewLineStr ft fmtT q.1 q.2⟩)

def pRssNewGroup (m : Nat) (bh f : Str) (ft : String) (fmtT : FmtTitle) (nh : Str)
    (sec i : Nat) (g : Str × List TitleEntry) (st : PState) : PState :=
  let st := pTryAppend m bh f [pf nh] ⟨PTag.unitPiece sec i, rssNewUnitStr ft fmtT g⟩ st
  let st := pFoldAppend m bh f [pf nh, pf (sourceHeaderStr ft g.1 g.2.length)]
    (rssNewLinePieces ft fmtT sec i g.2) st
  pAppendRaw st (lit "\n")

def pRssNewGroups (m : Nat) (bh f : Str) (ft : String) (fmtT : FmtTitle) (nh : Str)
    (sec : Nat) : List (Nat × (Str × List TitleEntry)) → PState → PState
  | [], st => st
  | (i, g) :: rest, st =>
      pRssNewGroups m bh f ft fmtT nh sec rest (pRssNewGroup m bh f ft fmtT nh sec i g st)

def pProcessRssNewSection (m : Nat) (bh f : Str) (ft : String) (fsep : Str)
    (fmtT : FmtTitle) (sec : Nat) (rssNewStats : List WordStat) (st : PState) : PState :=
  match rssNewStats with
  | [] => st
  | _ =>
      match groupBySource rssNewStats with
      | [] => st
      | _ =>
          let sourceMap := groupBySource rssNewStats
          let total := (sourceMap.map (fun g => g.2.length)).sum
          let nh := rssNewHeaderStr ft total fsep
          pRssNewGroups m bh f ft fmtT nh sec (List.enumFrom 0 sourceMap)
            (pTryAppend m bh f [] (pf nh) st)

def failLinePieces (ft : String) (failed : List Str) : List Piece :=
  (List.enumFrom 0 failed).map (fun q => ⟨PTag.failPiece q.1, failedLineStr ft q.2⟩)

def pProcessFailedSection (m : Nat) (bh f : Str) (ft : String) (fsep : Str)
    (failed : List Str) (st : PState) : PState :=
  match failed with
  | [] => st
  | _ =>
      let fh := failedHeaderStr ft fsep
      pFoldAppend m bh f [pf fh] (failLinePieces ft failed) (pTryAppend m bh f [] (pf fh) st)

def pFinalize (f : Str) (st : PState) : List (List Piece) :=
  if st.hasContent then st.batches ++ [st.current ++ [pf f]] else st.batches

/-- The piece-level splitter, structurally identical to
`splitContentIntoBatches`. -/
def pSplit (fmtT : FmtTitle) (report : ReportData) (ft : String)
    (upd : Option UpdateInfo) (mbo : Option Nat) (mode : String)
    (bs : List (String × Nat)) (fsep : Str) (rev : Bool) (now : Str)
    (rssItems rssNewItems : List WordStat) : List (List Piece) :=
  let m := resolveMaxBytes bs ft mbo
  let totalTitles := ((report.stats.filter (fun s => 0 < s.count)).map
    (fun s => s.titles.length)).sum
  let bh := baseHeader ft totalTitles now
  let f := baseFooter ft now upd
  let sh := match report.stats with | [] => [] | _ => statsHeaderStr ft
  let st : PState := ⟨[pf bh], false, []⟩
  match report.stats, report.newTitles, report.failedIds with
  | [], [], [] => [[pf bh, pf (lit "📭 " ++ modeText mode ++ lit "\n\n"), pf f]]
  | _, _, _ =>
      let st :=
        if rev then
          let st := pProcessNewSection m bh f ft fsep fmtT report.totalNewCount 2
            report.newTitles st
          let st := if rssNewItems ≠ [] then
              pProcessRssNewSection m bh f ft fsep fmtT 3 rssNewItems st
            else st
          let st := pProcessStatsLike m bh f ft fsep fmtT sh 0 report.stats st
          if rssItems ≠ [] then
            pProcessStatsLike m bh f ft fsep fmtT
              (rssHeaderStr ft ((rssItems.map (fun s => s.count)).sum) fsep) 1 rssItems st
          else st
        else
          let st := pProcessStatsLike m bh f ft fsep fmtT sh 0 report.stats st
          let st := if rssItems ≠ [] then
              pProcessStatsLike m bh f ft fsep fmtT
                (rssHeaderStr ft ((rssItems.map (fun s => s.count)).sum) fsep) 1 rssItems st
            else st
          let st := pProcessNewSection m bh f ft fsep fmtT report.totalNewCount 2
            report.newTitles st
          if rssNewItems ≠ [] then
            pProcessRssNewSection m bh f ft fsep fmtT 3 rssNewItems st
          else st
      pFinalize f (pProcessFailedSection m bh f ft fsep report.failedIds st)

/-! ## The expected content sequence (for the reconstruction claim) -/

/-- The content pieces of a stats-shaped section, in input order: for each
group its atomic unit followed by its remaining item lines. -/
def statContentPieces (ft : String) (fmtT : FmtTitle) (sec : Nat)
    (stats : List WordStat) : List Piece :=
  ((List.enumFrom 0 stats).map (fun p =>
    ⟨PTag.unitPiece sec p.1, statUnitStr ft fmtT stats.length p.1 p.2⟩ ::
    statLinePieces ft fmtT sec stats.length p.1 p.2)).flatten

/-- The content pieces of the hotlist new-titles section, in input order. -/
def newContentPieces (ft : String) (fmtT : FmtTitle) (sec : Nat)
    (groups : List SourceGroup) : List Piece :=
  ((List.enumFrom 0 groups).map (fun p =>
    ⟨PTag.unitPiece sec p.1, newUnitStr ft fmtT p.2⟩ ::
    newLinePieces ft fmtT sec p.1 p.2.titles)).flatten

/-- The content pieces of the RSS new-titles section, in source-map order. -/
def rssNewContentPieces (ft : String) (fmtT : FmtTitle) (sec : Nat)
    (rssNewStats : List WordStat) : List Piece :=
  ((List.enumFrom 0 (groupBySource rssNewStats)).map (fun p =>
    ⟨PTag.unitPiece sec p.1, rssNewUnitStr ft fmtT p.2⟩ ::
    rssNewLinePieces ft fmtT sec p.1 p.2.2)).flatten

/-- Every content unit of the whole input, in rendering order, each exactly
once: the sections in pipeline order and, inside each section, the groups and
their items in input order, with the failed-source lines always last. -/
def expectedContent (ft : String) (fmtT : FmtTitle) (report : ReportData)
    (rssItems rssNewItems : List WordStat) (rev : Bool) : List Piece :=
  match report.stats, report.newTitles, report.failedIds with
  | [], [], [] => []
  | _, _, _ =>
      (if rev then
        newContentPieces ft fmtT 2 report.newTitles ++
        rssNewContentPieces ft fmtT 3 rssNewItems ++
        statContentPieces ft fmtT 0 report.stats ++
        statContentPieces ft fmtT 1 rssItems
       else
        statContentPieces ft fmtT 0 report.stats ++
        statContentPieces ft fmtT 1 rssItems ++
        newContentPieces ft fmtT 2 report.newTitles ++
        rssNewContentPieces ft fmtT 3 rssNewItems) ++
      failLinePieces ft report.failedIds

/-- The content pieces accumulated in a piece-level state, in placement
order. -/
def ctrace (st : PState) : List Piece :=
  (st.batches.flatten ++ st.current).filter isContent

/-- A batch that has not yet received content holds only frame pieces (the
batch header, separators, blank lines).  Every reachable state satisfies
this. -/
def CInv (st : PState) : Prop :=
  st.hasContent = false → st.current.filter isContent = []

/-- The token handed to the `p.1`-th attempted ntfy topic (lines 352-366:
tokens, when configured, are cut to the capped topic count and looked up by
index; otherwise the empty string is sent). -/
def ntfyAttemptToken (maxAcc : Nat) (topicCfg tokenCfg : Str) (i : Nat) : Str :=
  let topics := limitAccounts (parseAccounts topicCfg) maxAcc
  let tokens0 := parseAccounts tokenCfg
  let tokens := if tokens0 ≠ [] then tokens0.take topics.length else tokens0
  if tokens ≠ [] then tokens.getD i [] else []

/-! ## Basic lemmas -/

theorem byteLen_append (a b : Str) : byteLen (a ++ b) = byteLen a + byteLen b := by
  simp [byteLen]

/-! ## C7: empty-report placeholder -/

/-- C7: for every format type, mode, byte budget and RSS arguments (including
non-empty ones), a report whose `stats`, `new_titles` and `failed_ids` are all
empty yields exactly one batch — the batch header, the mode-specific
placeholder sentence and the footer — and the three placeholder texts
(incremental / current / the daily default) are pairwise distinct. -/
theorem c7_empty_report_placeholder (fmtT : FmtTitle) (ft : String)
    (upd : Option UpdateInfo) (mbo : Option Nat) (mode : String)
    (bs : List (String × Nat)) (fsep : Str) (rev : Bool) (now : Str)
    (rssItems rssNewItems : List WordStat) (tnc : Nat) :
    splitContentIntoBatches fmtT ⟨[], [], [], tnc⟩ ft upd mbo mode bs fsep rev now
        rssItems rssNewItems =
      [baseHeader ft 0 now ++ lit "📭 " ++ modeText mode ++ lit "\n\n" ++ baseFooter ft now upd]
    ∧ modeText "incremental" ≠ modeText "current"
    ∧ modeText "incremental" ≠ modeText "daily"
    ∧ modeText "current" ≠ modeText "daily" :=
  ⟨rfl, by decide, by decide, by decide⟩

/-! ## C6: section order -/

/-- C6: the splitter is exactly the pipeline that runs the sections in the
order `sectionOrder rev` — `[hotlist-stats, rss-stats, hotlist-new, rss-new,
failed-sources]` by default and `[hotlist-new, rss-new, hotlist-stats,
rss-stats, failed-sources]` when `reverse_content_order` is set — followed by
the final flush (apart from the empty-report branch); and the failed-sources
section is last under both flag values. -/
theorem c6_section_order (fmtT : FmtTitle) (report : ReportData) (ft : String)
    (upd : Option UpdateInfo) (mbo : Option Nat) (mode : String)
    (bs : List (String × Nat)) (fsep : Str) (rev : Bool) (now : Str)
    (rssItems rssNewItems : List WordStat) :
    (splitContentIntoBatches fmtT report ft upd mbo mode bs fsep rev now rssItems rssNewItems =
      (let m := resolveMaxBytes bs ft mbo
       let totalTitles := ((report.stats.filter (fun s => 0 < s.count)).map
         (fun s => s.titles.length)).sum
       let bh := baseHeader ft totalTitles now
       let f := baseFooter ft now upd
       let sh := match report.stats with | [] => [] | _ => statsHeaderStr ft
       match report.stats, report.newTitles, report.failedIds with
       | [], [], [] => [bh ++ lit "📭 " ++ modeText mode ++ lit "\n\n" ++ f]
       | _, _, _ =>
           splitFinalize f (List.foldl
             (fun st tag => applySection fmtT report ft fsep rssItems rssNewItems m bh f sh tag st)
             ⟨bh, false, []⟩ (sectionOrder rev))))
    ∧ (sectionOrder rev).getLast? = some "failed-sources" := by
  constructor
  · rcases report with ⟨stats, nt, fi, tnc⟩
    cases rev <;> cases stats <;> cases nt <;> cases fi <;> rfl
  · cases rev <;> rfl

/-! ## Lemmas about account lists -/

theorem mem_parseAccounts_ne_nil {a : Str} {raw : Str} (h : a ∈ parseAccounts raw) :
    a ≠ [] := by
  simp only [parseAccounts, List.mem_filter, decide_eq_true_eq] at h
  exact h.2

theorem mem_limitAccounts {a : Str} {l : List Str} {cap : Nat}
    (h : a ∈ limitAccounts l cap) : a ∈ l := by
  unfold limitAccounts at h
  split at h
  · exact List.take_subset _ _ h
  · exact h

theorem mem_attemptedAccounts_ne_nil {a : Str} {maxAcc : Nat} {v : Str}
    (h : a ∈ attemptedAccounts maxAcc v) : a ≠ [] :=
  mem_parseAccounts_ne_nil (mem_limitAccounts h)

theorem snd_mem_of_mem_enumFrom {α : Type} {p : Nat × α} :
    ∀ {n : Nat} {l : List α}, p ∈ List.enumFrom n l → p.2 ∈ l := by
  intro n l
  induction l generalizing n with
  | nil => intro h; cases h
  | cons a as ih =>
      intro h
      rcases List.mem_cons.mp h with h | h
      · subst h; exact List.mem_cons_self _ _
      · exact List.mem_cons_of_mem _ (ih h)

theorem filterMap_str_eq_map {β : Type} (g : Str → β) :
    ∀ (l : List Str), (∀ w ∈ l, w ≠ []) →
      (l.filterMap (fun w => if w ≠ [] then some (g w) else none)) = l.map g := by
  intro l
  induction l with
  | nil => intro _; rfl
  | cons w l ih =>
      intro h
      simp only [List.filterMap_cons, List.map_cons, if_pos (h w (List.mem_cons_self _ _))]
      rw [ih (fun w hw => h w (List.mem_cons_of_mem _ hw))]

theorem filterMap_pair_eq_map {β : Type} (g : Nat × Str → β) :
    ∀ (l : List (Nat × Str)), (∀ p ∈ l, p.2 ≠ []) →
      (l.filterMap (fun p => if p.2 ≠ [] then some (g p) else none)) = l.map g := by
  intro l
  induction l with
  | nil => intro _; rfl
  | cons p l ih =>
      intro h
      simp only [List.filterMap_cons, List.map_cons, if_pos (h p (List.mem_cons_self _ _))]
      rw [ih (fun q hq => h q (List.mem_cons_of_mem _ hq))]

/-! ## C10: per-channel OR aggregation -/

theorem limitAccounts_length_le (l : List Str) (cap : Nat) :
    (limitAccounts l cap).length ≤ l.length := by
  unfold limitAccounts
  split
  · simp [List.length_take]
  · exact le_rfl

theorem filterMap_cond_eq_map {β : Type} (g : Nat → β) (T C : List Str) :
    ∀ (l : List Nat), (∀ i ∈ l, T.getD i [] ≠ [] ∧ C.getD i [] ≠ []) →
      (l.filterMap (fun i =>
        if T.getD i [] ≠ [] ∧ C.getD i [] ≠ [] then some (g i) else none)) = l.map g := by
  intro l
  induction l with
  | nil => intro _; rfl
  | cons i l ih =>
      intro h
      simp only [List.filterMap_cons, List.map_cons, if_pos (h i (List.mem_cons_self _ _))]
      rw [ih (fun j hj => h j (List.mem_cons_of_mem _ hj))]

/-- C10: every multi-account channel\x27s result is the OR (`List.any`) of the
send outcomes of all attempted accounts.  For the single-value channels
(feishu, dingtalk, wework, bark, slack) this holds unconditionally over the
attempted account list; for telegram it holds whenever the paired validation
passes, over the attempted (token, chat-id) pairs; for ntfy it holds whenever
the server url is set and the token count is consistent, over the attempted
topics with their looked-up tokens.  In particular a first account failing
and a second succeeding yields `true`, two failures yield `false`, and a
configuration with no (non-blank) account yields `false` without any
send. -/
theorem c10_channel_or_semantics :
    (∀ (maxAcc : Nat) (v : Str) (send : Str → Str → Bool),
      sendToMultiAccounts maxAcc v send =
        ((List.enumFrom 0 (attemptedAccounts maxAcc v)).map
          (fun p => send p.2 (accountLabel p.1 (attemptedAccounts maxAcc v).length))).any id)
    ∧ sendToMultiAccounts 3 (lit "u1;u2") (fun a _ => a == lit "u2") = true
    ∧ sendToMultiAccounts 3 (lit "u1;u2") (fun _ _ => false) = false
    ∧ sendToMultiAccounts 3 (lit " ; ; ") (fun _ _ => true) = false
    ∧ (∀ (maxAcc : Nat) (b c : Str) (send : Str → Str → Str → Bool),
      (validatePaired2 (parseAccounts b) (parseAccounts c)).1 = true →
      sendTelegramChannel maxAcc b c send =
        ((List.range (limitAccounts (parseAccounts b) maxAcc).length).map
          (fun i => send ((limitAccounts (parseAccounts b) maxAcc).getD i [])
            (((parseAccounts c).take
              (limitAccounts (parseAccounts b) maxAcc).length).getD i [])
            (accountLabel i (limitAccounts (parseAccounts b) maxAcc).length))).any id)
    ∧ (∀ (maxAcc : Nat) (url topicCfg tokenCfg : Str)
        (send : Str → Str → Str → Str → Bool),
      url ≠ [] →
      ¬(parseAccounts tokenCfg ≠ [] ∧
        (parseAccounts tokenCfg).length ≠ (parseAccounts topicCfg).length) →
      sendNtfyChannel maxAcc url topicCfg tokenCfg send =
        ((List.enumFrom 0 (attemptedAccounts maxAcc topicCfg)).map
          (fun p => send url p.2 (ntfyAttemptToken maxAcc topicCfg tokenCfg p.1)
            (accountLabel p.1 (attemptedAccounts maxAcc topicCfg).length))).any id) := by
  refine ⟨?_, by decide, by decide, by decide, ?_, ?_⟩
  · intro maxAcc v send
    simp only [sendToMultiAccounts, attemptedAccounts]
    by_cases h : parseAccounts v = []
    · rw [if_pos h, h]
      simp [limitAccounts]
    · rw [if_neg h, filterMap_pair_eq_map]
      intro p hp
      exact mem_parseAccounts_ne_nil (mem_limitAccounts (snd_mem_of_mem_enumFrom hp))
  · intro maxAcc b c send hv
    have hcond : (parseAccounts b).length = (parseAccounts c).length ∧
        0 < (parseAccounts b).length := by
      by_contra hC
      unfold validatePaired2 at hv
      rw [if_neg hC] at hv
      exact Bool.false_ne_true hv
    have hbne : parseAccounts b ≠ [] := by
      intro h0
      rw [h0] at hcond
      exact absurd hcond.2 (by simp)
    have hcne : parseAccounts c ≠ [] := by
      intro h0
      rw [h0] at hcond
      obtain ⟨h1, h2⟩ := hcond
      rw [List.length_nil] at h1
      omega
    have hv2 : ¬((validatePaired2 (parseAccounts b) (parseAccounts c)).2 = 0) := by
      unfold validatePaired2
      rw [if_pos hcond]
      show ¬((parseAccounts b).length = 0)
      have h2 := hcond.2
      omega
    simp only [sendTelegramChannel]
    rw [if_neg (not_or.mpr ⟨hbne, hcne⟩), if_neg (not_or.mpr ⟨not_not_intro hv, hv2⟩),
      filterMap_cond_eq_map]
    intro i hi
    rw [List.mem_range] at hi
    have hTle : (limitAccounts (parseAccounts b) maxAcc).length ≤
        (parseAccounts c).length := hcond.1 ▸ limitAccounts_length_le _ _
    constructor
    · have hm : (limitAccounts (parseAccounts b) maxAcc).getD i [] ∈
          limitAccounts (parseAccounts b) maxAcc := by
        rw [List.getD_eq_getElem _ _ hi]
        exact List.getElem_mem _
      exact mem_parseAccounts_ne_nil (mem_limitAccounts hm)
    · have hi2 : i < ((parseAccounts c).take
          (limitAccounts (parseAccounts b) maxAcc).length).length := by
        rw [List.length_take]
        omega
      have hm : ((parseAccounts c).take
            (limitAccounts (parseAccounts b) maxAcc).length).getD i [] ∈
          (parseAccounts c).take (limitAccounts (parseAccounts b) maxAcc).length := by
        rw [List.getD_eq_getElem _ _ hi2]
        exact List.getElem_mem _
      exact mem_parseAccounts_ne_nil (List.mem_of_mem_take hm)
  · intro maxAcc url topicCfg tokenCfg send hurl hcnt
    by_cases ht : parseAccounts topicCfg = []
    · simp only [sendNtfyChannel]
      rw [if_pos (Or.inr ht)]
      simp [attemptedAccounts, limitAccounts, ht]
    · simp only [sendNtfyChannel]
      rw [if_neg (not_or.mpr ⟨hurl, ht⟩), if_neg hcnt, filterMap_pair_eq_map]
      · rfl
      · intro p hp
        exact mem_parseAccounts_ne_nil (mem_limitAccounts (snd_mem_of_mem_enumFrom hp))

/-- C10 witness: the telegram and ntfy conjuncts applied at concrete
configurations whose validations pass — in both cases the first attempted
account fails and the second succeeds, so the channel reports `true`. -/
theorem c10_witness :
    (validatePaired2 (parseAccounts (lit "t1;t2")) (parseAccounts (lit "c1;c2"))).1 = true
    ∧ sendTelegramChannel 3 (lit "t1;t2") (lit "c1;c2")
        (fun t _ _ => t == lit "t2") = true
    ∧ sendNtfyChannel 3 (lit "u") (lit "a;b") []
        (fun _ tp _ _ => tp == lit "b") = true :=
  ⟨by decide,
   Eq.trans (c10_channel_or_semantics.2.2.2.2.1 3 (lit "t1;t2") (lit "c1;c2")
     (fun t _ _ => t == lit "t2") (by decide)) (by decide),
   Eq.trans (c10_channel_or_semantics.2.2.2.2.2 3 (lit "u") (lit "a;b") []
     (fun _ tp _ _ => tp == lit "b") (by decide) (by decide)) (by decide)⟩

/-! ## C9: first transport failure aborts an account's remaining batches -/

theorem sendBatchesSeq_snd (post : Str → Bool) :
    ∀ (batches : List Str), (sendBatchesSeq post batches).2 = batches.all post := by
  intro batches
  induction batches with
  | nil => rfl
  | cons b bs ih =>
      by_cases hp : post b
      · simp [sendBatchesSeq, hp, ih]
      · simp [sendBatchesSeq, hp]

theorem sendBatchesSeq_fst (post : Str → Bool) :
    ∀ (batches : List Str),
      (sendBatchesSeq post batches).1 =
        batches.take (batches.findIdx (fun b => ! post b) + 1) := by
  intro batches
  induction batches with
  | nil => rfl
  | cons b bs ih =>
      by_cases hp : post b
      · simp [sendBatchesSeq, hp, List.findIdx_cons, ih]
      · simp [sendBatchesSeq, hp, List.findIdx_cons]

/-- C9: within one account, batches are posted in list order and the first
failed post aborts the rest — the posted batches are exactly the prefix up to
and including the first failure, and the account succeeds iff every batch
posts; the channel maps each non-blank account independently through this
loop and ORs the outcomes, so one account's failure leaves the others'
outcomes unchanged. -/
theorem c9_first_failure_aborts :
    (∀ (post : Str → Bool) (batches : List Str),
      (sendBatchesSeq post batches).1 =
          batches.take (batches.findIdx (fun b => ! post b) + 1)
      ∧ (sendBatchesSeq post batches).2 = batches.all post)
    ∧ (∀ (maxAcc : Nat) (webhookCfg : Str) (batches : List Str) (post : Str → Str → Bool),
      sendRssFeishuChannel maxAcc webhookCfg batches post =
        ((attemptedAccounts maxAcc webhookCfg).map (fun w => batches.all (post w))).any id) := by
  refine ⟨fun post batches => ⟨sendBatchesSeq_fst post batches, sendBatchesSeq_snd post batches⟩,
    ?_⟩
  intro maxAcc webhookCfg batches post
  simp only [sendRssFeishuChannel, attemptedAccounts]
  rw [filterMap_str_eq_map (fun w => (sendBatchesSeq (post w) batches).2)]
  · congr 1
    exact List.map_congr_left fun w _ => sendBatchesSeq_snd (post w) batches
  · intro w hw
    exact mem_parseAccounts_ne_nil (mem_limitAccounts hw)

/-! ## C2: telegram paired-credential mismatch -/

theorem lookup_append_ne (k : String) (ys : List (String × Bool)) :
    ∀ (xs : List (String × Bool)), (∀ p ∈ xs, p.1 ≠ k) →
      (xs ++ ys).lookup k = ys.lookup k := by
  intro xs
  induction xs with
  | nil => intro _; rfl
  | cons p xs ih =>
      intro h
      rcases p with ⟨k', v⟩
      have hne : (k == k') = false :=
        beq_eq_false_iff_ne.mpr (fun hk => h (k', v) (List.mem_cons_self _ _) hk.symm)
      simp only [List.cons_append, List.lookup, hne]
      exact ih (fun q hq => h q (List.mem_cons_of_mem _ hq))

theorem forall_mem_ite_singleton {c : Prop} [Decidable c] {v : Bool} (key k : String)
    (hx : key ≠ k) : ∀ p ∈ (if c then [(key, v)] else []), p.1 ≠ k := by
  intro p hp
  split at hp
  · rw [List.mem_singleton.mp hp]; exact hx
  · cases hp

/-- On a paired-length mismatch the telegram channel helper returns `false`
without consulting the transport. -/
theorem sendTelegramChannel_mismatch (maxAcc : Nat) (tokCfg chatCfg : Str)
    (send : Str → Str → Str → Bool)
    (hlen : (parseAccounts tokCfg).length ≠ (parseAccounts chatCfg).length) :
    sendTelegramChannel maxAcc tokCfg chatCfg send = false := by
  simp only [sendTelegramChannel]
  by_cases h0 : parseAccounts tokCfg = [] ∨ parseAccounts chatCfg = []
  · rw [if_pos h0]
  · rw [if_neg h0]
    have hv : validatePaired2 (parseAccounts tokCfg) (parseAccounts chatCfg) = (false, 0) := by
      unfold validatePaired2
      rw [if_neg (fun hc => hlen hc.1)]
    rw [hv]
    simp

/-- When both telegram credentials are configured, the dispatch result maps
`"telegram"` to the telegram channel helper's outcome. -/
theorem dispatchAll_lookup_telegram (cfg : NotifyConfig) (t : Transports)
    (htok : cfg.telegramBotToken ≠ []) (hchat : cfg.telegramChatId ≠ []) :
    (dispatchAll cfg t).lookup "telegram" =
      some (sendTelegramChannel cfg.maxAccounts cfg.telegramBotToken cfg.telegramChatId
        t.sendTelegram) := by
  unfold dispatchAll
  simp only [List.append_assoc]
  rw [lookup_append_ne _ _ _ (forall_mem_ite_singleton "feishu" "telegram" (by decide)),
      lookup_append_ne _ _ _ (forall_mem_ite_singleton "dingtalk" "telegram" (by decide)),
      lookup_append_ne _ _ _ (forall_mem_ite_singleton "wework" "telegram" (by decide)),
      if_pos ⟨htok, hchat⟩]
  simp [List.lookup]

/-- C2 counterexample: with `TELEGRAM_BOT_TOKEN = "t1;t2;t3"` and
`TELEGRAM_CHAT_ID = "c1;c2"` (parsed lengths 3 and 2) and no other channel
configured, `dispatch_all` returns — for EVERY choice of transports, so no
send outcome is involved — a mapping in which the key `"telegram"` is PRESENT
with value `false`, refuting the claim that the key is absent. -/
theorem c2_counterexample :
    (∀ t : Transports, (dispatchAll cfgTelegramMismatch t).lookup "telegram" = some false)
    ∧ (parseAccounts cfgTelegramMismatch.telegramBotToken).length = 3
    ∧ (parseAccounts cfgTelegramMismatch.telegramChatId).length = 2 := by
  refine ⟨?_, by decide, by decide⟩
  intro t
  rw [dispatchAll_lookup_telegram cfgTelegramMismatch t (by decide) (by decide),
    sendTelegramChannel_mismatch _ _ _ _ (by decide)]

/-- C2 amended: whenever both telegram credentials are configured but their
parsed account lists have unequal lengths, the paired validation fails and the
channel is skipped without attempting any account — but `dispatch_all` returns
the key `"telegram"` PRESENT with value `false` (not absent). -/
theorem c2_telegram_mismatch_reports_false (cfg : NotifyConfig) (t : Transports)
    (htok : cfg.telegramBotToken ≠ []) (hchat : cfg.telegramChatId ≠ [])
    (hlen : (parseAccounts cfg.telegramBotToken).length ≠
      (parseAccounts cfg.telegramChatId).length) :
    sendTelegramChannel cfg.maxAccounts cfg.telegramBotToken cfg.telegramChatId
        t.sendTelegram = false
    ∧ (dispatchAll cfg t).lookup "telegram" = some false := by
  have hsend := sendTelegramChannel_mismatch cfg.maxAccounts _ _ t.sendTelegram hlen
  exact ⟨hsend, by rw [dispatchAll_lookup_telegram cfg t htok hchat, hsend]⟩

/-- C2 witness: the amended statement at the concrete mismatched
configuration. -/
theorem c2_witness :
    (parseAccounts cfgTelegramMismatch.telegramBotToken).length ≠
      (parseAccounts cfgTelegramMismatch.telegramChatId).length
    ∧ (dispatchAll cfgTelegramMismatch tAllTrue).lookup "telegram" = some false :=
  ⟨by decide,
   (c2_telegram_mismatch_reports_false cfgTelegramMismatch tAllTrue (by decide) (by decide)
     (by decide)).2⟩

/-! ## C8: configuration gating and omission -/

theorem mem_ite_singleton {c : Prop} [Decidable c] {p x : String × Bool} :
    (p ∈ (if c then [x] else [])) ↔ c ∧ p = x := by
  split
  · next h => simp [h]
  · next h => simp [h]

/-- C8: `dispatch_all` is a total function into channel-to-boolean mappings
(it cannot raise), and a channel key occurs in its result exactly when that
channel's minimum required configuration is present — a channel with a
missing webhook URL, a missing half of the telegram or ntfy pair, or an
incomplete email triple is omitted entirely rather than mapped to `false`. -/
theorem c8_gating_and_omission (cfg : NotifyConfig) (t : Transports) (ch : String) :
    (∃ b, (ch, b) ∈ dispatchAll cfg t) ↔ channelGate cfg ch := by
  unfold dispatchAll channelGate
  constructor
  · rintro ⟨b, hb⟩
    simp only [List.mem_append, mem_ite_singleton, Prod.mk.injEq, or_assoc] at hb
    rcases hb with ⟨hc, he, _⟩|⟨hc, he, _⟩|⟨hc, he, _⟩|⟨hc, he, _⟩|⟨hc, he, _⟩|⟨hc, he, _⟩|
      ⟨hc, he, _⟩|⟨hc, he, _⟩
    · exact Or.inl ⟨hc, he⟩
    · exact Or.inr (Or.inl ⟨hc, he⟩)
    · exact Or.inr (Or.inr (Or.inl ⟨hc, he⟩))
    · exact Or.inr (Or.inr (Or.inr (Or.inl ⟨hc, he⟩)))
    · exact Or.inr (Or.inr (Or.inr (Or.inr (Or.inl ⟨hc, he⟩))))
    · exact Or.inr (Or.inr (Or.inr (Or.inr (Or.inr (Or.inl ⟨hc, he⟩)))))
    · exact Or.inr (Or.inr (Or.inr (Or.inr (Or.inr (Or.inr (Or.inl ⟨hc, he⟩))))))
    · exact Or.inr (Or.inr (Or.inr (Or.inr (Or.inr (Or.inr (Or.inr ⟨hc, he⟩))))))
  · intro h
    simp only [List.mem_append, mem_ite_singleton, Prod.mk.injEq, or_assoc]
    rcases h with ⟨hc, he⟩|⟨hc, he⟩|⟨hc, he⟩|⟨hc, he⟩|⟨hc, he⟩|⟨hc, he⟩|⟨hc, he⟩|⟨hc, he⟩
    · exact ⟨_, Or.inl ⟨hc, he, rfl⟩⟩
    · exact ⟨_, Or.inr (Or.inl ⟨hc, he, rfl⟩)⟩
    · exact ⟨_, Or.inr (Or.inr (Or.inl ⟨hc, he, rfl⟩))⟩
    · exact ⟨_, Or.inr (Or.inr (Or.inr (Or.inl ⟨hc, he, rfl⟩)))⟩
    · exact ⟨_, Or.inr (Or.inr (Or.inr (Or.inr (Or.inl ⟨hc, he, rfl⟩))))⟩
    · exact ⟨_, Or.inr (Or.inr (Or.inr (Or.inr (Or.inr (Or.inl ⟨hc, he, rfl⟩)))))⟩
    · exact ⟨_, Or.inr (Or.inr (Or.inr (Or.inr (Or.inr (Or.inr (Or.inl ⟨hc, he, rfl⟩))))))⟩
    · exact ⟨_, Or.inr (Or.inr (Or.inr (Or.inr (Or.inr (Or.inr (Or.inr ⟨hc, he, rfl⟩))))))⟩

/-! ## C1: byte-budget invariant -/

theorem tryAppend_inv {m : Nat} {bh f ctx piece : Str} {st : SplitState}
    (hinv : InvPS m f st) (hfresh : byteLen (bh ++ ctx ++ piece) + byteLen f < m) :
    InvPS m f (tryAppend m bh f ctx piece st) ∧
      byteLen (tryAppend m bh f ctx piece st).current + byteLen f < m := by
  unfold tryAppend
  split
  · next hge =>
      refine ⟨⟨fun _ => le_of_lt hfresh, ?_⟩, hfresh⟩
      intro b hb
      split at hb
      · next hc =>
          rcases List.mem_append.mp hb with hb | hb
          · exact hinv.2 b hb
          · rw [List.mem_singleton.mp hb, byteLen_append]
            exact hinv.1 hc
      · exact hinv.2 b hb
  · next hge =>
      have hlt : byteLen (st.current ++ piece) + byteLen f < m := by omega
      exact ⟨⟨fun _ => le_of_lt hlt, hinv.2⟩, hlt⟩

theorem trySep_inv {m : Nat} {f sep : Str} {st : SplitState} (hinv : InvPS m f st) :
    InvPS m f (trySep m f sep st) ∧
      (byteLen st.current + byteLen f < m →
        byteLen (trySep m f sep st).current + byteLen f < m) := by
  unfold trySep
  split
  · next hlt => exact ⟨⟨fun _ => le_of_lt hlt, hinv.2⟩, fun _ => hlt⟩
  · exact ⟨hinv, fun h => h⟩

theorem appendRaw_nl_inv {m : Nat} {f : Str} {st : SplitState} (hinv : InvPS m f st)
    (hstrict : byteLen st.current + byteLen f < m) :
    InvPS m f (appendRaw st (lit "\n")) := by
  unfold appendRaw
  refine ⟨fun _ => ?_, hinv.2⟩
  show byteLen (st.current ++ lit "\n") + byteLen f ≤ m
  have h1 : byteLen (st.current ++ lit "\n") = byteLen st.current + 1 := by
    rw [byteLen_append]; rfl
  omega

theorem foldAppend_invS {m : Nat} {bh f ctx : Str} :
    ∀ (ps : List Str) (st : SplitState),
      (∀ p ∈ ps, byteLen (bh ++ ctx ++ p) + byteLen f < m) →
      InvPS m f st →
      InvPS m f (foldAppend m bh f ctx ps st) ∧
        (byteLen st.current + byteLen f < m →
          byteLen (foldAppend m bh f ctx ps st).current + byteLen f < m) := by
  intro ps
  induction ps with
  | nil => exact fun st _ hinv => ⟨hinv, fun h => h⟩
  | cons p ps ih =>
      intro st hfresh hinv
      have hstep := @tryAppend_inv _ bh _ ctx p _ hinv
        (hfresh p (List.mem_cons_self _ _))
      have hrec := ih (tryAppend m bh f ctx p st)
        (fun q hq => hfresh q (List.mem_cons_of_mem _ hq)) hstep.1
      exact ⟨hrec.1, fun _ => hrec.2 hstep.2⟩

theorem statGroup_inv {m : Nat} {bh f : Str} {ft : String} {fsep : Str} {fmtT : FmtTitle}
    {sh : Str} {total i : Nat} {s : WordStat} {st : SplitState}
    (hinv : InvPS m f st)
    (hunit : byteLen (bh ++ sh ++ statUnitStr ft fmtT total i s) + byteLen f < m)
    (hlines : ∀ l ∈ statLines ft fmtT s,
      byteLen (bh ++ (sh ++ wordHeaderStr ft i total s.word s.count) ++ l) + byteLen f < m) :
    InvPS m f (statGroup m bh f ft fsep fmtT sh total i s st) := by
  unfold statGroup
  have h1 := @tryAppend_inv _ bh _ sh _ _ hinv hunit
  have h2 := foldAppend_invS (statLines ft fmtT s) _ hlines h1.1
  split
  · exact (trySep_inv h2.1).1
  · exact h2.1

theorem statGroups_inv {m : Nat} {bh f : Str} {ft : String} {fsep : Str} {fmtT : FmtTitle}
    {sh : Str} {total : Nat} :
    ∀ (l : List (Nat × WordStat)) (st : SplitState),
      (∀ p ∈ l,
        byteLen (bh ++ sh ++ statUnitStr ft fmtT total p.1 p.2) + byteLen f < m ∧
        ∀ lne ∈ statLines ft fmtT p.2,
          byteLen (bh ++ (sh ++ wordHeaderStr ft p.1 total p.2.word p.2.count) ++ lne) +
            byteLen f < m) →
      InvPS m f st → InvPS m f (statGroups m bh f ft fsep fmtT sh total l st) := by
  intro l
  induction l with
  | nil => exact fun st _ hinv => hinv
  | cons p l ih =>
      intro st hfresh hinv
      rcases p with ⟨i, s⟩
      have hp := hfresh (i, s) (List.mem_cons_self _ _)
      exact ih _ (fun q hq => hfresh q (List.mem_cons_of_mem _ hq))
        (statGroup_inv hinv hp.1 hp.2)

theorem processStatsLike_inv {m : Nat} {bh f : Str} {ft : String} {fsep : Str}
    {fmtT : FmtTitle} {sh : Str} {stats : List WordStat} {st : SplitState}
    (hinv : InvPS m f st) (hfresh : freshStats m bh f ft fmtT sh stats) :
    InvPS m f (processStatsLike m bh f ft fsep fmtT sh stats st) := by
  unfold processStatsLike
  cases stats with
  | nil => exact hinv
  | cons s₀ rest =>
      have hsh : byteLen (bh ++ [] ++ sh) + byteLen f < m := by
        rw [List.append_nil]; exact hfresh.1 (by simp)
      have hhead := @tryAppend_inv _ bh _ ([] : Str) sh _ hinv hsh
      exact statGroups_inv _ _
        (fun p hp => ⟨hfresh.2.1 p hp, hfresh.2.2 p hp⟩) hhead.1

theorem newGroupCore_inv {m : Nat} {bh f nh srch unitFirst : Str} {lines : List Str}
    {st : SplitState}
    (hinv : InvPS m f st)
    (hunit : byteLen (bh ++ nh ++ (srch ++ unitFirst)) + byteLen f < m)
    (hlines : ∀ l ∈ lines, byteLen (bh ++ (nh ++ srch) ++ l) + byteLen f < m) :
    InvPS m f (appendRaw
      (foldAppend m bh f (nh ++ srch) lines (tryAppend m bh f nh (srch ++ unitFirst) st))
      (lit "\n")) := by
  have h1 := @tryAppend_inv _ bh _ nh _ _ hinv hunit
  have h2 := foldAppend_invS lines _ hlines h1.1
  exact appendRaw_nl_inv h2.1 (h2.2 h1.2)

theorem newGroups_inv {m : Nat} {bh f : Str} {ft : String} {fmtT : FmtTitle} {nh : Str} :
    ∀ (l : List SourceGroup) (st : SplitState),
      (∀ sd ∈ l,
        byteLen (bh ++ nh ++ newUnitStr ft fmtT sd) + byteLen f < m ∧
        ∀ lne ∈ newLines ft fmtT sd.titles,
          byteLen (bh ++ (nh ++ sourceHeaderStr ft sd.sourceName sd.titles.length) ++ lne) +
            byteLen f < m) →
      InvPS m f st → InvPS m f (newGroups m bh f ft fmtT nh l st) := by
  intro l
  induction l with
  | nil => exact fun st _ hinv => hinv
  | cons sd l ih =>
      intro st hfresh hinv
      have hp := hfresh sd (List.mem_cons_self _ _)
      exact ih _ (fun q hq => hfresh q (List.mem_cons_of_mem _ hq))
        (newGroupCore_inv hinv hp.1 hp.2)

theorem processNewSection_inv {m : Nat} {bh f : Str} {ft : String} {fsep : Str}
    {fmtT : FmtTitle} {tnc : Nat} {groups : List SourceGroup} {st : SplitState}
    (hinv : InvPS m f st) (hfresh : freshNew m bh f ft fsep fmtT tnc groups) :
    InvPS m f (processNewSection m bh f ft fsep fmtT tnc groups st) := by
  unfold processNewSection
  cases groups with
  | nil => exact hinv
  | cons g rest =>
      have hnh : byteLen (bh ++ [] ++ newHeaderStr ft tnc fsep) + byteLen f < m := by
        rw [List.append_nil]; exact hfresh.1 (by simp)
      have hhead := @tryAppend_inv _ bh _ ([] : Str) (newHeaderStr ft tnc fsep) _ hinv hnh
      exact newGroups_inv _ _ (fun sd hsd => ⟨hfresh.2.1 sd hsd, hfresh.2.2 sd hsd⟩) hhead.1

theorem rssNewGroups_inv {m : Nat} {bh f : Str} {ft : String} {fmtT : FmtTitle} {nh : Str} :
    ∀ (l : List (Str × List TitleEntry)) (st : SplitState),
      (∀ g ∈ l,
        byteLen (bh ++ nh ++ rssNewUnitStr ft fmtT g) + byteLen f < m ∧
        ∀ lne ∈ rssNewLines ft fmtT g.2,
          byteLen (bh ++ (nh ++ sourceHeaderStr ft g.1 g.2.length) ++ lne) + byteLen f < m) →
      InvPS m f st → InvPS m f (rssNewGroups m bh f ft fmtT nh l st) := by
  intro l
  induction l with
  | nil => exact fun st _ hinv => hinv
  | cons g l ih =>
      intro st hfresh hinv
      have hp := hfresh g (List.mem_cons_self _ _)
      exact ih _ (fun q hq => hfresh q (List.mem_cons_of_mem _ hq))
        (newGroupCore_inv hinv hp.1 hp.2)

theorem processRssNewSection_inv {m : Nat} {bh f : Str} {ft : String} {fsep : Str}
    {fmtT : FmtTitle} {rssNewStats : List WordStat} {st : SplitState}
    (hinv : InvPS m f st) (hfresh : freshRssNew m bh f ft fsep fmtT rssNewStats) :
    InvPS m f (processRssNewSection m bh f ft fsep fmtT rssNewStats st) := by
  unfold processRssNewSection
  cases rssNewStats with
  | nil => exact hinv
  | cons s₀ rest =>
      cases hgm : groupBySource (s₀ :: rest) with
      | nil => exact hinv
      | cons g gs =>
          unfold freshRssNew at hfresh
          rw [hgm] at hfresh
          have hnh : byteLen (bh ++ [] ++
              rssNewHeaderStr ft ((List.map (fun g => g.2.length) (g :: gs)).sum) fsep) +
              byteLen f < m := by
            rw [List.append_nil]; exact hfresh.1 (by simp)
          have hhead := @tryAppend_inv _ bh _ ([] : Str) _ _ hinv hnh
          have := rssNewGroups_inv (g :: gs) _
            (fun q hq => ⟨hfresh.2.1 q hq, hfresh.2.2 q hq⟩) hhead.1
          simpa [hgm] using this

theorem processFailedSection_inv {m : Nat} {bh f : Str} {ft : String} {fsep : Str}
    {failed : List Str} {st : SplitState}
    (hinv : InvPS m f st) (hfresh : freshFailed m bh f ft fsep failed) :
    InvPS m f (processFailedSection m bh f ft fsep failed st) := by
  unfold processFailedSection
  cases failed with
  | nil => exact hinv
  | cons i rest =>
      have hfh : byteLen (bh ++ [] ++ failedHeaderStr ft fsep) + byteLen f < m := by
        rw [List.append_nil]; exact hfresh.1 (by simp)
      have hhead := @tryAppend_inv _ bh _ ([] : Str) (failedHeaderStr ft fsep) _ hinv hfh
      refine (foldAppend_invS _ _ ?_ hhead.1).1
      intro p hp
      rcases List.mem_map.mp hp with ⟨idv, hidv, rfl⟩
      exact hfresh.2 idv hidv

theorem splitFinalize_bound {m : Nat} {f : Str} {st : SplitState} (hinv : InvPS m f st) :
    ∀ b ∈ splitFinalize f st, byteLen b ≤ m := by
  unfold splitFinalize
  intro b hb
  split at hb
  · next hc =>
      rcases List.mem_append.mp hb with hb | hb
      · exact hinv.2 b hb
      · rw [List.mem_singleton.mp hb, byteLen_append]
        exact hinv.1 hc
  · exact hinv.2 b hb

/-- C1 amended: whenever every content placement of the input — each section
banner, each atomic group-header-plus-first-item unit, each later rendered
item line and each failed-source line, together with the batch header, its
section re-entry context and the footer — passes the fresh-batch fit test
(`freshAll`), every returned batch has UTF-8 byte length at most `maxBytes`.
(The counterexample shows a batch may exceed the budget through a lone later
item line, not only through an oversized atomic unit.) -/
theorem c1_batches_bounded (fmtT : FmtTitle) (report : ReportData) (ft : String)
    (upd : Option UpdateInfo) (m : Nat) (mode : String) (bs : List (String × Nat))
    (fsep : Str) (rev : Bool) (now : Str) (rssItems rssNewItems : List WordStat)
    (hfresh : freshAll m
      (baseHeader ft (((report.stats.filter (fun s => 0 < s.count)).map
        (fun s => s.titles.length)).sum) now)
      (baseFooter ft now upd) ft fsep fmtT mode report rssItems rssNewItems) :
    ∀ b ∈ splitContentIntoBatches fmtT report ft upd (some m) mode bs fsep rev now
        rssItems rssNewItems,
      byteLen b ≤ m := by
  obtain ⟨hempty, hstats, hrss, hnew, hrssNew, hfailed⟩ := hfresh
  unfold splitContentIntoBatches
  rcases report with ⟨stats, nt, fi, tnc⟩
  have hinv0 : InvPS m (baseFooter ft now upd)
      (⟨baseHeader ft (((stats.filter (fun s => 0 < s.count)).map
        (fun s => s.titles.length)).sum) now, false, []⟩ : SplitState) :=
    ⟨fun h => absurd h Bool.false_ne_true, fun b hb => absurd hb (List.not_mem_nil b)⟩
  have wrapRss : ∀ st : SplitState, InvPS m (baseFooter ft now upd) st →
      InvPS m (baseFooter ft now upd)
        (if rssItems ≠ [] then
          processRssStatsSection m
            (baseHeader ft (((stats.filter (fun s => 0 < s.count)).map
              (fun s => s.titles.length)).sum) now)
            (baseFooter ft now upd) ft fsep fmtT rssItems st
         else st) := by
    intro st h
    split
    · exact processStatsLike_inv h hrss
    · exact h
  have wrapRssNew : ∀ st : SplitState, InvPS m (baseFooter ft now upd) st →
      InvPS m (baseFooter ft now upd)
        (if rssNewItems ≠ [] then
          processRssNewSection m
            (baseHeader ft (((stats.filter (fun s => 0 < s.count)).map
              (fun s => s.titles.length)).sum) now)
            (baseFooter ft now upd) ft fsep fmtT rssNewItems st
         else st) := by
    intro st h
    split
    · exact processRssNewSection_inv h hrssNew
    · exact h
  cases stats with
  | nil =>
      cases nt with
      | nil =>
          cases fi with
          | nil =>
              intro b hb
              rw [List.mem_singleton.mp hb]
              exact hempty ⟨rfl, rfl, rfl⟩
          | cons i fis =>
              apply splitFinalize_bound
              apply processFailedSection_inv _ hfailed
              cases rev
              · exact wrapRssNew _ (processNewSection_inv (wrapRss _
                  (processStatsLike_inv hinv0 hstats)) hnew)
              · exact wrapRss _ (processStatsLike_inv (wrapRssNew _
                  (processNewSection_inv hinv0 hnew)) hstats)
      | cons g nts =>
          apply splitFinalize_bound
          apply processFailedSection_inv _ hfailed
          cases rev
          · exact wrapRssNew _ (processNewSection_inv (wrapRss _
              (processStatsLike_inv hinv0 hstats)) hnew)
          · exact wrapRss _ (processStatsLike_inv (wrapRssNew _
              (processNewSection_inv hinv0 hnew)) hstats)
  | cons s ss =>
      apply splitFinalize_bound
      apply processFailedSection_inv _ hfailed
      cases rev
      · exact wrapRssNew _ (processNewSection_inv (wrapRss _
          (processStatsLike_inv hinv0 hstats)) hnew)
      · exact wrapRss _ (processStatsLike_inv (wrapRssNew _
          (processNewSection_inv hinv0 hnew)) hstats)

/-- C1 counterexample: with a 20-byte budget, the input `reportOversizeItem`
has every atomic unit within the budget (its only unit is 10 bytes), yet the
splitter returns a batch of 21 bytes — the lone SECOND news line of the group
— so the claim's only allowed exception (a batch that is an atomic unit whose
own size exceeds the budget) does not cover it. -/
theorem c1_counterexample :
    (∀ u ∈ atomicUnits "plain" fmtNone reportOversizeItem [] [], byteLen u ≤ 20)
    ∧ lit "  2. BBBBBBBBBBBBBBB\n" ∈
        splitContentIntoBatches fmtNone reportOversizeItem "plain" none (some 20) "daily" []
          (lit "---") false [] [] []
    ∧ byteLen (lit "  2. BBBBBBBBBBBBBBB\n") > 20 :=
  ⟨by decide, by decide, by decide⟩

/-- C1 witness: the amended bound applied at a concrete small input whose
placements all fit a 50-byte budget. -/
theorem c1_witness :
    freshAll 50
      (baseHeader "plain" (((reportTiny.stats.filter (fun s => 0 < s.count)).map
        (fun s => s.titles.length)).sum) [])
      (baseFooter "plain" [] none) "plain" (lit "---") fmtNone "daily" reportTiny [] []
    ∧ ∀ b ∈ splitContentIntoBatches fmtNone reportTiny "plain" none (some 50) "daily" []
        (lit "---") false [] [] [],
      byteLen b ≤ 50 :=
  ⟨by unfold freshAll freshStats freshNew freshRssNew freshFailed; decide,
   c1_batches_bounded fmtNone reportTiny "plain" none 50 "daily" [] (lit "---") false [] [] []
     (by unfold freshAll freshStats freshNew freshRssNew freshFailed; decide)⟩

/-! ## C5: separator behaviour -/

/-- C5 counterexample: in the new-titles section the inter-group blank line is
appended even when it does not fit.  With a 10-byte budget the single batch
returned for `reportSepOverflow` is the 9-byte line with the blank-line
separator appended (10 bytes), although the fit test
`byteLen(current ++ "\n") + byteLen(footer) < maxBytes` fails — the claim
would require the batch to end without the separator. -/
theorem c5_counterexample :
    splitContentIntoBatches fmtNone reportSepOverflow "plain" none (some 10) "daily" []
        (lit "---") false [] [] []
      = [lit "  1. AAA\n" ++ lit "\n"]
    ∧ ¬ (byteLen (lit "  1. AAA\n" ++ lit "\n") + byteLen (baseFooter "plain" [] none) < 10) :=
  ⟨by decide, by decide⟩

theorem trySep_batches {m : Nat} {f sep : Str} {st : SplitState} :
    (trySep m f sep st).batches = st.batches := by
  unfold trySep
  split <;> rfl

theorem trySep_hasContent {m : Nat} {f sep : Str} {st : SplitState} :
    (trySep m f sep st).hasContent = st.hasContent := by
  unfold trySep
  split <;> rfl

/-- C5 amended: in the stats sections (hotlist and RSS) the inter-group
separator is appended after a group completes exactly when the current batch
plus separator plus footer passes the strict fit test, and is silently
dropped otherwise; in the new-titles sections (hotlist and RSS) the
inter-group blank line is appended unconditionally after every group, even
when it does not fit; in no section does a separator step close a batch —
neither `trySep` nor `appendRaw` ever changes the finished-batches list, and
the batches after a whole group equal those after its unit-and-items phase. -/
theorem c5_separator_behaviour :
    (∀ (m : Nat) (f sep : Str) (st : SplitState),
      (trySep m f sep st).batches = st.batches ∧
      (trySep m f sep st).hasContent = st.hasContent ∧
      (trySep m f sep st).current =
        (if byteLen (st.current ++ sep) + byteLen f < m then st.current ++ sep
         else st.current))
    ∧ (∀ (st : SplitState) (s : Str),
      (appendRaw st s).batches = st.batches ∧
      (appendRaw st s).hasContent = st.hasContent ∧
      (appendRaw st s).current = st.current ++ s)
    ∧ (∀ (m : Nat) (bh f : Str) (ft : String) (fsep : Str) (fmtT : FmtTitle) (sh : Str)
        (total i : Nat) (s : WordStat) (st : SplitState),
      (statGroup m bh f ft fsep fmtT sh total i s st).batches =
        (foldAppend m bh f (sh ++ wordHeaderStr ft i total s.word s.count)
          (statLines ft fmtT s)
          (tryAppend m bh f sh (statUnitStr ft fmtT total i s) st)).batches)
    ∧ (∀ (m : Nat) (bh f : Str) (ft : String) (fmtT : FmtTitle) (nh : Str)
        (sd : SourceGroup) (st : SplitState),
      (newGroup m bh f ft fmtT nh sd st).batches =
        (foldAppend m bh f (nh ++ sourceHeaderStr ft sd.sourceName sd.titles.length)
          (newLines ft fmtT sd.titles)
          (tryAppend m bh f nh (newUnitStr ft fmtT sd) st)).batches) := by
  refine ⟨?_, ?_, ?_, ?_⟩
  · intro m f sep st
    refine ⟨trySep_batches, trySep_hasContent, ?_⟩
    unfold trySep
    split <;> rfl
  · intro st s
    exact ⟨rfl, rfl, rfl⟩
  · intro m bh f ft fsep fmtT sh total i s st
    unfold statGroup
    split
    · exact trySep_batches
    · rfl
  · intro m bh f ft fmtT nh sd st
    rfl

/-! ## C3: atomicity of group-header-plus-first-item units -/

theorem strInfix_append_right {u a : Str} (s : Str) (h : strInfix u a) :
    strInfix u (a ++ s) := by
  rcases h with ⟨p, q, rfl⟩
  exact ⟨p, q ++ s, by simp⟩

/-- The working state keeps `u` whole: either `u` sits inside the current
batch (which will be flushed, since it has content) or inside a finished
batch. -/
def InfixInv (u : Str) (st : SplitState) : Prop :=
  (strInfix u st.current ∧ st.hasContent = true) ∨ ∃ b ∈ st.batches, strInfix u b

theorem tryAppend_infixInv {u : Str} {m : Nat} {bh f ctx piece : Str} {st : SplitState}
    (h : InfixInv u st) : InfixInv u (tryAppend m bh f ctx piece st) := by
  unfold tryAppend
  rcases h with ⟨hcur, hc⟩ | ⟨b, hb, hib⟩
  · split
    · right
      refine ⟨st.current ++ f, ?_, strInfix_append_right f hcur⟩
      simp [hc]
    · left
      exact ⟨strInfix_append_right piece hcur, rfl⟩
  · split
    · right
      refine ⟨b, ?_, hib⟩
      show b ∈ (if st.hasContent = true then st.batches ++ [st.current ++ f] else st.batches)
      split
      · exact List.mem_append_left _ hb
      · exact hb
    · exact Or.inr ⟨b, hb, hib⟩

theorem trySep_infixInv {u : Str} {m : Nat} {f sep : Str} {st : SplitState}
    (h : InfixInv u st) : InfixInv u (trySep m f sep st) := by
  unfold trySep
  split
  · rcases h with ⟨hcur, hc⟩ | hb
    · exact Or.inl ⟨strInfix_append_right sep hcur, hc⟩
    · exact Or.inr hb
  · exact h

theorem appendRaw_infixInv {u : Str} {s : Str} {st : SplitState}
    (h : InfixInv u st) : InfixInv u (appendRaw st s) := by
  unfold appendRaw
  rcases h with ⟨hcur, hc⟩ | hb
  · exact Or.inl ⟨strInfix_append_right s hcur, hc⟩
  · exact Or.inr hb

theorem foldAppend_infixInv {u : Str} {m : Nat} {bh f ctx : Str} :
    ∀ (ps : List Str) (st : SplitState),
      InfixInv u st → InfixInv u (foldAppend m bh f ctx ps st) := by
  intro ps
  induction ps with
  | nil => exact fun st h => h
  | cons p ps ih => exact fun st h => ih _ (tryAppend_infixInv h)

/-- Placing `u` itself via `tryAppend` puts it whole into the current batch
(in both the fit and the overflow branch). -/
theorem tryAppend_places (m : Nat) (bh f ctx u : Str) (st : SplitState) :
    InfixInv u (tryAppend m bh f ctx u st) := by
  unfold tryAppend
  split
  · exact Or.inl ⟨⟨bh ++ ctx, [], by simp⟩, rfl⟩
  · exact Or.inl ⟨⟨st.current, [], by simp⟩, rfl⟩

theorem statGroup_infixInv {u : Str} {m : Nat} {bh f : Str} {ft : String} {fsep : Str}
    {fmtT : FmtTitle} {sh : Str} {total i : Nat} {s : WordStat} {st : SplitState}
    (h : InfixInv u st) : InfixInv u (statGroup m bh f ft fsep fmtT sh total i s st) := by
  unfold statGroup
  split
  · exact trySep_infixInv (foldAppend_infixInv _ _ (tryAppend_infixInv h))
  · exact foldAppend_infixInv _ _ (tryAppend_infixInv h)

theorem statGroup_places {m : Nat} {bh f : Str} {ft : String} {fsep : Str}
    {fmtT : FmtTitle} {sh : Str} {total i : Nat} {s : WordStat} {st : SplitState} :
    InfixInv (statUnitStr ft fmtT total i s) (statGroup m bh f ft fsep fmtT sh total i s st) := by
  unfold statGroup
  split
  · exact trySep_infixInv (foldAppend_infixInv _ _ (tryAppend_places m bh f sh _ st))
  · exact foldAppend_infixInv _ _ (tryAppend_places m bh f sh _ st)

theorem statGroups_infixInv {u : Str} {m : Nat} {bh f : Str} {ft : String} {fsep : Str}
    {fmtT : FmtTitle} {sh : Str} {total : Nat} :
    ∀ (l : List (Nat × WordStat)) (st : SplitState),
      InfixInv u st → InfixInv u (statGroups m bh f ft fsep fmtT sh total l st) := by
  intro l
  induction l with
  | nil => exact fun st h => h
  | cons p l ih =>
      rcases p with ⟨i, s⟩
      exact fun st h => ih _ (statGroup_infixInv h)

theorem statGroups_places {m : Nat} {bh f : Str} {ft : String} {fsep : Str}
    {fmtT : FmtTitle} {sh : Str} {total : Nat} :
    ∀ (l : List (Nat × WordStat)) (st : SplitState) (p : Nat × WordStat), p ∈ l →
      InfixInv (statUnitStr ft fmtT total p.1 p.2)
        (statGroups m bh f ft fsep fmtT sh total l st) := by
  intro l
  induction l with
  | nil => intro st p hp; cases hp
  | cons q l ih =>
      intro st p hp
      rcases List.mem_cons.mp hp with rfl | hp
      · exact statGroups_infixInv l _ statGroup_places
      · exact ih _ p hp

theorem processStatsLike_infixInv {u : Str} {m : Nat} {bh f : Str} {ft : String}
    {fsep : Str} {fmtT : FmtTitle} {sh : Str} {stats : List WordStat} {st : SplitState}
    (h : InfixInv u st) : InfixInv u (processStatsLike m bh f ft fsep fmtT sh stats st) := by
  unfold processStatsLike
  cases stats with
  | nil => exact h
  | cons s ss => exact statGroups_infixInv _ _ (tryAppend_infixInv h)

theorem processStatsLike_places {m : Nat} {bh f : Str} {ft : String} {fsep : Str}
    {fmtT : FmtTitle} {sh : Str} {stats : List WordStat} {st : SplitState}
    {p : Nat × WordStat} (hp : p ∈ List.enumFrom 0 stats) :
    InfixInv (statUnitStr ft fmtT stats.length p.1 p.2)
      (processStatsLike m bh f ft fsep fmtT sh stats st) := by
  unfold processStatsLike
  cases stats with
  | nil => cases hp
  | cons s ss => exact statGroups_places _ _ p hp

theorem newGroupCore_infixInv {u : Str} {m : Nat} {bh f nh srch unitFirst : Str}
    {lines : List Str} {st : SplitState} (h : InfixInv u st) :
    InfixInv u (appendRaw
      (foldAppend m bh f (nh ++ srch) lines (tryAppend m bh f nh (srch ++ unitFirst) st))
      (lit "\n")) :=
  appendRaw_infixInv (foldAppend_infixInv _ _ (tryAppend_infixInv h))

theorem newGroups_infixInv {u : Str} {m : Nat} {bh f : Str} {ft : String}
    {fmtT : FmtTitle} {nh : Str} :
    ∀ (l : List SourceGroup) (st : SplitState),
      InfixInv u st → InfixInv u (newGroups m bh f ft fmtT nh l st) := by
  intro l
  induction l with
  | nil => exact fun st h => h
  | cons sd l ih => exact fun st h => ih _ (newGroupCore_infixInv h)

theorem newGroups_places {m : Nat} {bh f : Str} {ft : String} {fmtT : FmtTitle} {nh : Str} :
    ∀ (l : List SourceGroup) (st : SplitState) (sd : SourceGroup), sd ∈ l →
      InfixInv (newUnitStr ft fmtT sd) (newGroups m bh f ft fmtT nh l st) := by
  intro l
  induction l with
  | nil => intro st sd hsd; cases hsd
  | cons q l ih =>
      intro st sd hsd
      rcases List.mem_cons.mp hsd with rfl | hsd
      · exact newGroups_infixInv l _
          (appendRaw_infixInv (foldAppend_infixInv _ _ (tryAppend_places m bh f nh _ st)))
      · exact ih _ sd hsd

theorem processNewSection_infixInv {u : Str} {m : Nat} {bh f : Str} {ft : String}
    {fsep : Str} {fmtT : FmtTitle} {tnc : Nat} {groups : List SourceGroup} {st : SplitState}
    (h : InfixInv u st) : InfixInv u (processNewSection m bh f ft fsep fmtT tnc groups st) := by
  unfold processNewSection
  cases groups with
  | nil => exact h
  | cons g gs => exact newGroups_infixInv _ _ (tryAppend_infixInv h)

theorem processNewSection_places {m : Nat} {bh f : Str} {ft : String} {fsep : Str}
    {fmtT : FmtTitle} {tnc : Nat} {groups : List SourceGroup} {st : SplitState}
    {sd : SourceGroup} (hsd : sd ∈ groups) :
    InfixInv (newUnitStr ft fmtT sd) (processNewSection m bh f ft fsep fmtT tnc groups st) := by
  unfold processNewSection
  cases groups with
  | nil => cases hsd
  | cons g gs => exact newGroups_places _ _ sd hsd

theorem rssNewGroups_infixInv {u : Str} {m : Nat} {bh f : Str} {ft : String}
    {fmtT : FmtTitle} {nh : Str} :
    ∀ (l : List (Str × List TitleEntry)) (st : SplitState),
      InfixInv u st → InfixInv u (rssNewGroups m bh f ft fmtT nh l st) := by
  intro l
  induction l with
  | nil => exact fun st h => h
  | cons g l ih => exact fun st h => ih _ (newGroupCore_infixInv h)

theorem rssNewGroups_places {m : Nat} {bh f : Str} {ft : String} {fmtT : FmtTitle}
    {nh : Str} :
    ∀ (l : List (Str × List TitleEntry)) (st : SplitState) (g : Str × List TitleEntry),
      g ∈ l →
      InfixInv (rssNewUnitStr ft fmtT g) (rssNewGroups m bh f ft fmtT nh l st) := by
  intro l
  induction l with
  | nil => intro st g hg; cases hg
  | cons q l ih =>
      intro st g hg
      rcases List.mem_cons.mp hg with rfl | hg
      · exact rssNewGroups_infixInv l _
          (appendRaw_infixInv (foldAppend_infixInv _ _ (tryAppend_places m bh f nh _ st)))
      · exact ih _ g hg

theorem processRssNewSection_infixInv {u : Str} {m : Nat} {bh f : Str} {ft : String}
    {fsep : Str} {fmtT : FmtTitle} {rssNewStats : List WordStat} {st : SplitState}
    (h : InfixInv u st) :
    InfixInv u (processRssNewSection m bh f ft fsep fmtT rssNewStats st) := by
  unfold processRssNewSection
  cases rssNewStats with
  | nil => exact h
  | cons s ss =>
      cases groupBySource (s :: ss) with
      | nil => exact h
      | cons g gs => exact rssNewGroups_infixInv _ _ (tryAppend_infixInv h)

theorem processRssNewSection_places {m : Nat} {bh f : Str} {ft : String} {fsep : Str}
    {fmtT : FmtTitle} {rssNewStats : List WordStat} {st : SplitState}
    {g : Str × List TitleEntry} (hg : g ∈ groupBySource rssNewStats) :
    InfixInv (rssNewUnitStr ft fmtT g)
      (processRssNewSection m bh f ft fsep fmtT rssNewStats st) := by
  unfold processRssNewSection
  cases rssNewStats with
  | nil => simp [groupBySource] at hg
  | cons s ss =>
      cases hgg : groupBySource (s :: ss) with
      | nil => rw [hgg] at hg; cases hg
      | cons q qs =>
          rw [hgg] at hg
          exact rssNewGroups_places _ _ g hg

theorem processFailedSection_infixInv {u : Str} {m : Nat} {bh f : Str} {ft : String}
    {fsep : Str} {failed : List Str} {st : SplitState} (h : InfixInv u st) :
    InfixInv u (processFailedSection m bh f ft fsep failed st) := by
  unfold processFailedSection
  cases failed with
  | nil => exact h
  | cons i rest => exact foldAppend_infixInv _ _ (tryAppend_infixInv h)

theorem infixInv_finalize {u f : Str} {st : SplitState} (h : InfixInv u st) :
    ∃ b ∈ splitFinalize f st, strInfix u b := by
  unfold splitFinalize
  rcases h with ⟨hcur, hc⟩ | ⟨b, hb, hib⟩
  · rw [if_pos hc]
    exact ⟨st.current ++ f, List.mem_append_right _ (List.mem_singleton.mpr rfl),
      strInfix_append_right f hcur⟩
  · split
    · exact ⟨b, List.mem_append_left _ hb, hib⟩
    · exact ⟨b, hb, hib⟩

/-- C3: the splitter never separates a group header from that group\x27s first
rendered item, in any section: every keyword-group unit of the hotlist stats
section, every source-group unit of the hotlist new-titles section, every
keyword-group unit of the RSS stats section and every source-map group unit
of the RSS new-titles section occurs contiguously inside one returned batch —
also when that unit alone exceeds the byte budget, in which case the
containing batch is simply oversized (the embedding is a total function; no
input raises).  The RSS conjuncts assume the report is not entirely empty,
since the empty-report early return emits only the placeholder batch. -/
theorem c3_atomic_units_not_split (fmtT : FmtTitle) (report : ReportData) (ft : String)
    (upd : Option UpdateInfo) (mbo : Option Nat) (mode : String) (bs : List (String × Nat))
    (fsep : Str) (rev : Bool) (now : Str) (rssItems rssNewItems : List WordStat) :
    (∀ p ∈ List.enumFrom 0 report.stats,
      ∃ b ∈ splitContentIntoBatches fmtT report ft upd mbo mode bs fsep rev now
          rssItems rssNewItems,
        strInfix (statUnitStr ft fmtT report.stats.length p.1 p.2) b)
    ∧ (∀ sd ∈ report.newTitles,
      ∃ b ∈ splitContentIntoBatches fmtT report ft upd mbo mode bs fsep rev now
          rssItems rssNewItems,
        strInfix (newUnitStr ft fmtT sd) b)
    ∧ (report.stats ≠ [] ∨ report.newTitles ≠ [] ∨ report.failedIds ≠ [] →
      ∀ p ∈ List.enumFrom 0 rssItems,
        ∃ b ∈ splitContentIntoBatches fmtT report ft upd mbo mode bs fsep rev now
            rssItems rssNewItems,
          strInfix (statUnitStr ft fmtT rssItems.length p.1 p.2) b)
    ∧ (report.stats ≠ [] ∨ report.newTitles ≠ [] ∨ report.failedIds ≠ [] →
      ∀ g ∈ groupBySource rssNewItems,
        ∃ b ∈ splitContentIntoBatches fmtT report ft upd mbo mode bs fsep rev now
            rssItems rssNewItems,
          strInfix (rssNewUnitStr ft fmtT g) b) := by
  rcases report with ⟨stats, nt, fi, tnc⟩
  unfold splitContentIntoBatches
  have hwRss : ∀ (mm : Nat) (bhh ff : Str) (st : SplitState) (u : Str), InfixInv u st →
      InfixInv u (if rssItems ≠ [] then
        processRssStatsSection mm bhh ff ft fsep fmtT rssItems st else st) := by
    intro mm bhh ff st u h
    split
    · exact processStatsLike_infixInv h
    · exact h
  have hwRssNew : ∀ (mm : Nat) (bhh ff : Str) (st : SplitState) (u : Str), InfixInv u st →
      InfixInv u (if rssNewItems ≠ [] then
        processRssNewSection mm bhh ff ft fsep fmtT rssNewItems st else st) := by
    intro mm bhh ff st u h
    split
    · exact processRssNewSection_infixInv h
    · exact h
  refine ⟨?_, ?_, ?_, ?_⟩
  · intro p hp
    cases stats with
    | nil => cases hp
    | cons s ss =>
        apply infixInv_finalize
        apply processFailedSection_infixInv
        cases rev
        · exact hwRssNew _ _ _ _ _ (processNewSection_infixInv
            (hwRss _ _ _ _ _ (processStatsLike_places hp)))
        · exact hwRss _ _ _ _ _ (processStatsLike_places hp)
  · intro sd hsd
    cases stats with
    | cons s ss =>
        apply infixInv_finalize
        apply processFailedSection_infixInv
        cases rev
        · exact hwRssNew _ _ _ _ _ (processNewSection_places hsd)
        · exact hwRss _ _ _ _ _ (processStatsLike_infixInv
            (hwRssNew _ _ _ _ _ (processNewSection_places hsd)))
    | nil =>
        cases nt with
        | nil => cases hsd
        | cons g gs =>
            cases fi with
            | nil =>
                apply infixInv_finalize
                apply processFailedSection_infixInv
                cases rev
                · exact hwRssNew _ _ _ _ _ (processNewSection_places hsd)
                · exact hwRss _ _ _ _ _ (processStatsLike_infixInv
                    (hwRssNew _ _ _ _ _ (processNewSection_places hsd)))
            | cons i fis =>
                apply infixInv_finalize
                apply processFailedSection_infixInv
                cases rev
                · exact hwRssNew _ _ _ _ _ (processNewSection_places hsd)
                · exact hwRss _ _ _ _ _ (processStatsLike_infixInv
                    (hwRssNew _ _ _ _ _ (processNewSection_places hsd)))
  · intro hne p hp
    have hri : rssItems ≠ [] := by
      rintro rfl
      cases hp
    have hplaces : ∀ (mm : Nat) (bhh ff : Str) (st : SplitState),
        InfixInv (statUnitStr ft fmtT rssItems.length p.1 p.2)
          (if rssItems ≠ [] then
            processRssStatsSection mm bhh ff ft fsep fmtT rssItems st else st) := by
      intro mm bhh ff st
      rw [if_pos hri]
      exact processStatsLike_places hp
    cases stats with
    | cons s ss =>
        apply infixInv_finalize
        apply processFailedSection_infixInv
        cases rev
        · exact hwRssNew _ _ _ _ _ (processNewSection_infixInv (hplaces _ _ _ _))
        · exact hplaces _ _ _ _
    | nil =>
        cases nt with
        | cons g gs =>
            cases fi with
            | nil =>
                apply infixInv_finalize
                apply processFailedSection_infixInv
                cases rev
                · exact hwRssNew _ _ _ _ _ (processNewSection_infixInv (hplaces _ _ _ _))
                · exact hplaces _ _ _ _
            | cons i fis =>
                apply infixInv_finalize
                apply processFailedSection_infixInv
                cases rev
                · exact hwRssNew _ _ _ _ _ (processNewSection_infixInv (hplaces _ _ _ _))
                · exact hplaces _ _ _ _
        | nil =>
            cases fi with
            | cons i fis =>
                apply infixInv_finalize
                apply processFailedSection_infixInv
                cases rev
                · exact hwRssNew _ _ _ _ _ (processNewSection_infixInv (hplaces _ _ _ _))
                · exact hplaces _ _ _ _
            | nil =>
                rcases hne with h | h | h <;> exact absurd rfl h
  · intro hne g hg
    have hrn : rssNewItems ≠ [] := by
      rintro rfl
      simp [groupBySource] at hg
    have hplaces : ∀ (mm : Nat) (bhh ff : Str) (st : SplitState),
        InfixInv (rssNewUnitStr ft fmtT g)
          (if rssNewItems ≠ [] then
            processRssNewSection mm bhh ff ft fsep fmtT rssNewItems st else st) := by
      intro mm bhh ff st
      rw [if_pos hrn]
      exact processRssNewSection_places hg
    cases stats with
    | cons s ss =>
        apply infixInv_finalize
        apply processFailedSection_infixInv
        cases rev
        · exact hplaces _ _ _ _
        · exact hwRss _ _ _ _ _ (processStatsLike_infixInv (hplaces _ _ _ _))
    | nil =>
        cases nt with
        | cons q gs =>
            cases fi with
            | nil =>
                apply infixInv_finalize
                apply processFailedSection_infixInv
                cases rev
                · exact hplaces _ _ _ _
                · exact hwRss _ _ _ _ _ (processStatsLike_infixInv (hplaces _ _ _ _))
            | cons i fis =>
                apply infixInv_finalize
                apply processFailedSection_infixInv
                cases rev
                · exact hplaces _ _ _ _
                · exact hwRss _ _ _ _ _ (processStatsLike_infixInv (hplaces _ _ _ _))
        | nil =>
            cases fi with
            | cons i fis =>
                apply infixInv_finalize
                apply processFailedSection_infixInv
                cases rev
                · exact hplaces _ _ _ _
                · exact hwRss _ _ _ _ _ (processStatsLike_infixInv (hplaces _ _ _ _))
            | nil =>
                rcases hne with h | h | h <;> exact absurd rfl h

/-- C3 witness: a single `WordStat` whose atomic unit alone (18 bytes)
exceeds the 10-byte budget is still emitted whole inside one oversized
batch; an RSS stats unit and an RSS new-titles source-map unit are likewise
placed whole when the same report also carries RSS items. -/
theorem c3_witness :
    ((0, (⟨lit "w", 1, [teA12]⟩ : WordStat)) ∈ List.enumFrom 0 reportOversizeUnit.stats)
    ∧ byteLen (statUnitStr "plain" fmtNone reportOversizeUnit.stats.length 0
        ⟨lit "w", 1, [teA12]⟩) > 10
    ∧ (∃ b ∈ splitContentIntoBatches fmtNone reportOversizeUnit "plain" none (some 10) "daily"
        [] (lit "---") false [] [] [],
      strInfix (statUnitStr "plain" fmtNone reportOversizeUnit.stats.length 0
        ⟨lit "w", 1, [teA12]⟩) b)
    ∧ (∃ b ∈ splitContentIntoBatches fmtNone reportOversizeUnit "plain" none (some 10) "daily"
        [] (lit "---") false [] [⟨lit "r", 1, [teAAA]⟩] [],
      strInfix (statUnitStr "plain" fmtNone
        [(⟨lit "r", 1, [teAAA]⟩ : WordStat)].length 0 ⟨lit "r", 1, [teAAA]⟩) b)
    ∧ (∃ b ∈ splitContentIntoBatches fmtNone reportOversizeUnit "plain" none (some 10) "daily"
        [] (lit "---") false [] [] [⟨lit "r", 1, [teAAA]⟩],
      strInfix (rssNewUnitStr "plain" fmtNone (lit "s", [teAAA])) b) :=
  ⟨by decide, by decide,
   (c3_atomic_units_not_split fmtNone reportOversizeUnit "plain" none (some 10) "daily" []
     (lit "---") false [] [] []).1 (0, ⟨lit "w", 1, [teA12]⟩) (by decide),
   (c3_atomic_units_not_split fmtNone reportOversizeUnit "plain" none (some 10) "daily" []
     (lit "---") false [] [⟨lit "r", 1, [teAAA]⟩] []).2.2.1 (Or.inl (by decide))
     (0, ⟨lit "r", 1, [teAAA]⟩) (by decide),
   (c3_atomic_units_not_split fmtNone reportOversizeUnit "plain" none (some 10) "daily" []
     (lit "---") false [] [] [⟨lit "r", 1, [teAAA]⟩]).2.2.2 (Or.inl (by decide))
     (lit "s", [teAAA]) (by decide)⟩

/-! ## C4: simulation of the piece-level splitter -/

@[simp]
theorem pf_str (s : Str) : (pf s).str = s := rfl

@[simp]
theorem isContent_pf (s : Str) : isContent (pf s) = false := rfl

@[simp]
theorem pjoin_nil : pjoin [] = [] := rfl

@[simp]
theorem pjoin_cons (p : Piece) (l : List Piece) : pjoin (p :: l) = p.str ++ pjoin l := rfl

@[simp]
theorem pjoin_append (a b : List Piece) : pjoin (a ++ b) = pjoin a ++ pjoin b := by
  simp [pjoin]

@[simp]
theorem pjoin_singleton (p : Piece) : pjoin [p] = p.str := by
  simp [pjoin]

theorem toS_pTryAppend (m : Nat) (bh f : Str) (ctx : List Piece) (p : Piece) (st : PState) :
    toS (pTryAppend m bh f ctx p st) = tryAppend m bh f (pjoin ctx) p.str (toS st) := by
  unfold pTryAppend tryAppend toS
  by_cases h : byteLen (pjoin st.current ++ p.str) + byteLen f ≥ m <;>
    by_cases hc : st.hasContent <;>
      simp [h, hc, List.append_assoc]

theorem toS_pTrySep (m : Nat) (f sep : Str) (st : PState) :
    toS (pTrySep m f sep st) = trySep m f sep (toS st) := by
  unfold pTrySep trySep toS
  by_cases h : byteLen (pjoin st.current ++ sep) + byteLen f < m <;> simp [h]

theorem toS_pAppendRaw (s : Str) (st : PState) :
    toS (pAppendRaw st s) = appendRaw (toS st) s := by
  simp [pAppendRaw, appendRaw, toS]

theorem toS_pFoldAppend (m : Nat) (bh f : Str) (ctx : List Piece) :
    ∀ (ps : List Piece) (st : PState),
      toS (pFoldAppend m bh f ctx ps st) =
        foldAppend m bh f (pjoin ctx) (ps.map Piece.str) (toS st) := by
  intro ps
  induction ps with
  | nil => intro st; rfl
  | cons p ps ih =>
      intro st
      show toS (pFoldAppend m bh f ctx ps (pTryAppend m bh f ctx p st)) =
        foldAppend m bh f (pjoin ctx) (p.str :: ps.map Piece.str) (toS st)
      rw [ih, toS_pTryAppend]
      rfl

theorem statLinePieces_str (ft : String) (fmtT : FmtTitle) (sec total i : Nat) (s : WordStat) :
    (statLinePieces ft fmtT sec total i s).map Piece.str = statLines ft fmtT s := by
  unfold statLinePieces statLines
  rw [List.map_map]
  rfl

theorem newLinePieces_str (ft : String) (fmtT : FmtTitle) (sec i : Nat)
    (titles : List TitleEntry) :
    (newLinePieces ft fmtT sec i titles).map Piece.str = newLines ft fmtT titles := by
  unfold newLinePieces newLines
  rw [List.map_map]
  rfl

theorem rssNewLinePieces_str (ft : String) (fmtT : FmtTitle) (sec i : Nat)
    (titles : List TitleEntry) :
    (rssNewLinePieces ft fmtT sec i titles).map Piece.str = rssNewLines ft fmtT titles := by
  unfold rssNewLinePieces rssNewLines
  rw [List.map_map]
  rfl

theorem failLinePieces_str (ft : String) :
    ∀ (n : Nat) (failed : List Str),
      ((List.enumFrom n failed).map (fun q =>
        (⟨PTag.failPiece q.1, failedLineStr ft q.2⟩ : Piece))).map Piece.str =
        failed.map (failedLineStr ft) := by
  intro n failed
  induction failed generalizing n with
  | nil => rfl
  | cons i rest ih =>
      show failedLineStr ft i :: _ = _
      rw [ih]
      rfl

theorem toS_pStatGroup (m : Nat) (bh f : Str) (ft : String) (fsep : Str) (fmtT : FmtTitle)
    (sh : Str) (sec total i : Nat) (s : WordStat) (st : PState) :
    toS (pStatGroup m bh f ft fsep fmtT sh sec total i s st) =
      statGroup m bh f ft fsep fmtT sh total i s (toS st) := by
  unfold pStatGroup statGroup
  split
  · rw [toS_pTrySep, toS_pFoldAppend, toS_pTryAppend, statLinePieces_str]
    simp [statUnitStr]
  · rw [toS_pFoldAppend, toS_pTryAppend, statLinePieces_str]
    simp [statUnitStr]

theorem toS_pStatGroups (m : Nat) (bh f : Str) (ft : String) (fsep : Str) (fmtT : FmtTitle)
    (sh : Str) (sec total : Nat) :
    ∀ (l : List (Nat × WordStat)) (st : PState),
      toS (pStatGroups m bh f ft fsep fmtT sh sec total l st) =
        statGroups m bh f ft fsep fmtT sh total l (toS st) := by
  intro l
  induction l with
  | nil => intro st; rfl
  | cons p l ih =>
      intro st
      rcases p with ⟨i, s⟩
      show toS (pStatGroups m bh f ft fsep fmtT sh sec total l
        (pStatGroup m bh f ft fsep fmtT sh sec total i s st)) = _
      rw [ih, toS_pStatGroup]
      rfl

theorem toS_pProcessStatsLike (m : Nat) (bh f : Str) (ft : String) (fsep : Str)
    (fmtT : FmtTitle) (sh : Str) (sec : Nat) (stats : List WordStat) (st : PState) :
    toS (pProcessStatsLike m bh f ft fsep fmtT sh sec stats st) =
      processStatsLike m bh f ft fsep fmtT sh stats (toS st) := by
  unfold pProcessStatsLike processStatsLike
  cases stats with
  | nil => rfl
  | cons s ss =>
      rw [toS_pStatGroups, toS_pTryAppend]
      rfl

theorem toS_pNewGroup (m : Nat) (bh f : Str) (ft : String) (fmtT : FmtTitle) (nh : Str)
    (sec i : Nat) (sd : SourceGroup) (st : PState) :
    toS (pNewGroup m bh f ft fmtT nh sec i sd st) = newGroup m bh f ft fmtT nh sd (toS st) := by
  unfold pNewGroup newGroup
  rw [toS_pAppendRaw, toS_pFoldAppend, toS_pTryAppend, newLinePieces_str]
  simp [newUnitStr]

theorem toS_pNewGroups (m : Nat) (bh f : Str) (ft : String) (fmtT : FmtTitle) (nh : Str)
    (sec : Nat) :
    ∀ (groups : List SourceGroup) (n : Nat) (st : PState),
      toS (pNewGroups m bh f ft fmtT nh sec (List.enumFrom n groups) st) =
        newGroups m bh f ft fmtT nh groups (toS st) := by
  intro groups
  induction groups with
  | nil => intro n st; rfl
  | cons sd gs ih =>
      intro n st
      show toS (pNewGroups m bh f ft fmtT nh sec (List.enumFrom (n + 1) gs)
        (pNewGroup m bh f ft fmtT nh sec n sd st)) = _
      rw [ih, toS_pNewGroup]
      rfl

theorem toS_pProcessNewSection (m : Nat) (bh f : Str) (ft : String) (fsep : Str)
    (fmtT : FmtTitle) (tnc : Nat) (sec : Nat) (groups : List SourceGroup) (st : PState) :
    toS (pProcessNewSection m bh f ft fsep fmtT tnc sec groups st) =
      processNewSection m bh f ft fsep fmtT tnc groups (toS st) := by
  unfold pProcessNewSection processNewSection
  cases groups with
  | nil => rfl
  | cons g gs =>
      rw [toS_pNewGroups, toS_pTryAppend]
      rfl

theorem toS_pRssNewGroup (m : Nat) (bh f : Str) (ft : String) (fmtT : FmtTitle) (nh : Str)
    (sec i : Nat) (g : Str × List TitleEntry) (st : PState) :
    toS (pRssNewGroup m bh f ft fmtT nh sec i g st) =
      rssNewGroup m bh f ft fmtT nh g (toS st) := by
  unfold pRssNewGroup rssNewGroup
  rw [toS_pAppendRaw, toS_pFoldAppend, toS_pTryAppend, rssNewLinePieces_str]
  simp [rssNewUnitStr]

theorem toS_pRssNewGroups (m : Nat) (bh f : Str) (ft : String) (fmtT : FmtTitle) (nh : Str)
    (sec : Nat) :
    ∀ (groups : List (Str × List TitleEntry)) (n : Nat) (st : PState),
      toS (pRssNewGroups m bh f ft fmtT nh sec (List.enumFrom n groups) st) =
        rssNewGroups m bh f ft fmtT nh groups (toS st) := by
  intro groups
  induction groups with
  | nil => intro n st; rfl
  | cons g gs ih =>
      intro n st
      show toS (pRssNewGroups m bh f ft fmtT nh sec (List.enumFrom (n + 1) gs)
        (pRssNewGroup m bh f ft fmtT nh sec n g st)) = _
      rw [ih, toS_pRssNewGroup]
      rfl

theorem toS_pProcessRssNewSection (m : Nat) (bh f : Str) (ft : String) (fsep : Str)
    (fmtT : FmtTitle) (sec : Nat) (rssNewStats : List WordStat) (st : PState) :
    toS (pProcessRssNewSection m bh f ft fsep fmtT sec rssNewStats st) =
      processRssNewSection m bh f ft fsep fmtT rssNewStats (toS st) := by
  unfold pProcessRssNewSection processRssNewSection
  cases rssNewStats with
  | nil => rfl
  | cons s ss =>
      cases hg : groupBySource (s :: ss) with
      | nil => rfl
      | cons g gs =>
          rw [toS_pRssNewGroups, toS_pTryAppend]
          rfl

theorem toS_pProcessFailedSection (m : Nat) (bh f : Str) (ft : String) (fsep : Str)
    (failed : List Str) (st : PState) :
    toS (pProcessFailedSection m bh f ft fsep failed st) =
      processFailedSection m bh f ft fsep failed (toS st) := by
  unfold pProcessFailedSection processFailedSection
  cases failed with
  | nil => rfl
  | cons i rest =>
      rw [toS_pFoldAppend, toS_pTryAppend]
      unfold failLinePieces
      rw [failLinePieces_str]
      simp [pjoin, pf]

theorem pFinalize_map_pjoin (f : Str) (st : PState) :
    (pFinalize f st).map pjoin = splitFinalize f (toS st) := by
  unfold pFinalize splitFinalize toS
  by_cases hc : st.hasContent <;> simp [hc]

theorem toS_ite (c : Prop) [Decidable c] (a b : PState) :
    toS (if c then a else b) = if c then toS a else toS b := by
  split <;> rfl

theorem toS_init (bh : Str) :
    toS ⟨[pf bh], false, []⟩ = ⟨bh, false, []⟩ := by
  simp [toS, pjoin, pf]

theorem pSplit_map_pjoin (fmtT : FmtTitle) (report : ReportData) (ft : String)
    (upd : Option UpdateInfo) (mbo : Option Nat) (mode : String)
    (bs : List (String × Nat)) (fsep : Str) (rev : Bool) (now : Str)
    (rssItems rssNewItems : List WordStat) :
    (pSplit fmtT report ft upd mbo mode bs fsep rev now rssItems rssNewItems).map pjoin =
      splitContentIntoBatches fmtT report ft upd mbo mode bs fsep rev now rssItems rssNewItems := by
  unfold pSplit splitContentIntoBatches
  cases hs : report.stats <;> cases hn : report.newTitles <;> cases hf : report.failedIds <;>
    simp only [toS_ite, pFinalize_map_pjoin, toS_pProcessFailedSection, toS_pProcessStatsLike,
      toS_pProcessNewSection, toS_pProcessRssNewSection, toS_init, processRssStatsSection]
  all_goals simp [pjoin, pf]

/-! ## C4: content traces -/

theorem filter_isContent_frames (ctx : List Piece) (h : ∀ q ∈ ctx, isContent q = false) :
    ctx.filter isContent = [] := by
  induction ctx with
  | nil => rfl
  | cons q t ih =>
      simp [List.filter_cons, h q (by simp), ih (fun r hr => h r (by simp [hr]))]

theorem filter_map_isContent {α : Type} {g : Nat × α → Piece}
    (hg : ∀ q, isContent (g q) = true) (l : List (Nat × α)) :
    (l.map g).filter isContent = l.map g := by
  apply List.filter_eq_self.mpr
  intro p hp
  obtain ⟨q, _, rfl⟩ := List.mem_map.mp hp
  exact hg q

theorem filter_statLinePieces (ft : String) (fmtT : FmtTitle) (sec total i : Nat)
    (s : WordStat) :
    (statLinePieces ft fmtT sec total i s).filter isContent =
      statLinePieces ft fmtT sec total i s := by
  unfold statLinePieces
  refine filter_map_isContent (fun q => ?_) _
  rfl

theorem filter_newLinePieces (ft : String) (fmtT : FmtTitle) (sec i : Nat)
    (titles : List TitleEntry) :
    (newLinePieces ft fmtT sec i titles).filter isContent =
      newLinePieces ft fmtT sec i titles := by
  unfold newLinePieces
  refine filter_map_isContent (fun q => ?_) _
  rfl

theorem filter_rssNewLinePieces (ft : String) (fmtT : FmtTitle) (sec i : Nat)
    (titles : List TitleEntry) :
    (rssNewLinePieces ft fmtT sec i titles).filter isContent =
      rssNewLinePieces ft fmtT sec i titles := by
  unfold rssNewLinePieces
  refine filter_map_isContent (fun q => ?_) _
  rfl

theorem filter_failLinePieces (ft : String) (failed : List Str) :
    (failLinePieces ft failed).filter isContent = failLinePieces ft failed := by
  unfold failLinePieces
  refine filter_map_isContent (fun q => ?_) _
  rfl

theorem ctrace_pTryAppend {m : Nat} {bh f : Str} {ctx : List Piece} {p : Piece}
    {st : PState} (hctx : ∀ q ∈ ctx, isContent q = false) (hcinv : CInv st) :
    ctrace (pTryAppend m bh f ctx p st) = ctrace st ++ [p].filter isContent := by
  unfold pTryAppend ctrace
  split
  · by_cases hc : st.hasContent = true
    · simp [hc, List.filter_append, filter_isContent_frames ctx hctx, List.filter_cons]
    · have hc0 : st.hasContent = false := by simpa using hc
      simp [hc0, List.filter_append, filter_isContent_frames ctx hctx, hcinv hc0,
        List.filter_cons]
  · simp [List.filter_append]

theorem ctrace_pTrySep {m : Nat} {f sep : Str} {st : PState} :
    ctrace (pTrySep m f sep st) = ctrace st := by
  unfold pTrySep ctrace
  split
  · simp [List.filter_append]
  · rfl

theorem ctrace_pAppendRaw {st : PState} {s : Str} :
    ctrace (pAppendRaw st s) = ctrace st := by
  unfold pAppendRaw ctrace
  simp [List.filter_append]

theorem cinv_pTryAppend {m : Nat} {bh f : Str} {ctx : List Piece} {p : Piece}
    {st : PState} : CInv (pTryAppend m bh f ctx p st) := by
  unfold pTryAppend CInv
  split <;> intro h <;> simp at h

theorem cinv_pTrySep {m : Nat} {f sep : Str} {st : PState} (h : CInv st) :
    CInv (pTrySep m f sep st) := by
  unfold pTrySep
  split
  · intro hc
    simp [List.filter_append, h hc]
  · exact h

theorem cinv_pAppendRaw {st : PState} {s : Str} (h : CInv st) :
    CInv (pAppendRaw st s) := by
  unfold pAppendRaw
  intro hc
  simp [List.filter_append, h hc]

theorem cinv_pFoldAppend {m : Nat} {bh f : Str} {ctx : List Piece} {ps : List Piece}
    {st : PState} (h : CInv st) : CInv (pFoldAppend m bh f ctx ps st) := by
  induction ps generalizing st with
  | nil => exact h
  | cons p rest ih => exact ih cinv_pTryAppend

theorem ctrace_pFoldAppend {m : Nat} {bh f : Str} {ctx : List Piece} {ps : List Piece}
    {st : PState} (hctx : ∀ q ∈ ctx, isContent q = false) (hcinv : CInv st) :
    ctrace (pFoldAppend m bh f ctx ps st) = ctrace st ++ ps.filter isContent := by
  induction ps generalizing st with
  | nil => simp [pFoldAppend]
  | cons p rest ih =>
      show ctrace (pFoldAppend m bh f ctx rest (pTryAppend m bh f ctx p st)) = _
      rw [ih cinv_pTryAppend, ctrace_pTryAppend hctx hcinv]
      cases hp : isContent p <;> simp [List.filter_cons, hp]

theorem cinv_pStatGroup {m : Nat} {bh f : Str} {ft : String} {fsep : Str}
    {fmtT : FmtTitle} {sh : Str} {sec total i : Nat} {s : WordStat} {st : PState} :
    CInv (pStatGroup m bh f ft fsep fmtT sh sec total i s st) := by
  unfold pStatGroup
  split
  · exact cinv_pTrySep (cinv_pFoldAppend cinv_pTryAppend)
  · exact cinv_pFoldAppend cinv_pTryAppend

theorem ctrace_pStatGroup {m : Nat} {bh f : Str} {ft : String} {fsep : Str}
    {fmtT : FmtTitle} {sh : Str} {sec total i : Nat} {s : WordStat} {st : PState}
    (hcinv : CInv st) :
    ctrace (pStatGroup m bh f ft fsep fmtT sh sec total i s st) =
      ctrace st ++ ⟨PTag.unitPiece sec i, statUnitStr ft fmtT total i s⟩ ::
        statLinePieces ft fmtT sec total i s := by
  unfold pStatGroup
  split
  · rw [ctrace_pTrySep, ctrace_pFoldAppend (by simp) cinv_pTryAppend,
      ctrace_pTryAppend (by simp) hcinv]
    simp [filter_statLinePieces, isContent, List.filter_cons]
  · rw [ctrace_pFoldAppend (by simp) cinv_pTryAppend,
      ctrace_pTryAppend (by simp) hcinv]
    simp [filter_statLinePieces, isContent, List.filter_cons]

theorem cinv_pStatGroups {m : Nat} {bh f : Str} {ft : String} {fsep : Str}
    {fmtT : FmtTitle} {sh : Str} {sec total : Nat} {l : List (Nat × WordStat)}
    {st : PState} (h : CInv st) :
    CInv (pStatGroups m bh f ft fsep fmtT sh sec total l st) := by
  induction l generalizing st with
  | nil => exact h
  | cons a rest ih =>
      obtain ⟨i, s⟩ := a
      exact ih cinv_pStatGroup

theorem ctrace_pStatGroups {m : Nat} {bh f : Str} {ft : String} {fsep : Str}
    {fmtT : FmtTitle} {sh : Str} {sec total : Nat} {l : List (Nat × WordStat)}
    {st : PState} (hcinv : CInv st) :
    ctrace (pStatGroups m bh f ft fsep fmtT sh sec total l st) =
      ctrace st ++ (l.map (fun q =>
        (⟨PTag.unitPiece sec q.1, statUnitStr ft fmtT total q.1 q.2⟩ : Piece) ::
        statLinePieces ft fmtT sec total q.1 q.2)).flatten := by
  induction l generalizing st with
  | nil => simp [pStatGroups]
  | cons a rest ih =>
      obtain ⟨i, s⟩ := a
      show ctrace (pStatGroups m bh f ft fsep fmtT sh sec total rest
        (pStatGroup m bh f ft fsep fmtT sh sec total i s st)) = _
      rw [ih cinv_pStatGroup, ctrace_pStatGroup hcinv]
      simp

theorem cinv_pProcessStatsLike {m : Nat} {bh f : Str} {ft : String} {fsep : Str}
    {fmtT : FmtTitle} {sh : Str} {sec : Nat} {stats : List WordStat} {st : PState}
    (h : CInv st) : CInv (pProcessStatsLike m bh f ft fsep fmtT sh sec stats st) := by
  unfold pProcessStatsLike
  cases stats with
  | nil => exact h
  | cons s rest => exact cinv_pStatGroups cinv_pTryAppend

theorem ctrace_pProcessStatsLike {m : Nat} {bh f : Str} {ft : String} {fsep : Str}
    {fmtT : FmtTitle} {sh : Str} {sec : Nat} {stats : List WordStat} {st : PState}
    (hcinv : CInv st) :
    ctrace (pProcessStatsLike m bh f ft fsep fmtT sh sec stats st) =
      ctrace st ++ statContentPieces ft fmtT sec stats := by
  unfold pProcessStatsLike
  cases stats with
  | nil => simp [statContentPieces]
  | cons s rest =>
      rw [ctrace_pStatGroups cinv_pTryAppend, ctrace_pTryAppend (by simp) hcinv]
      simp [statContentPieces]

theorem cinv_pNewGroup {m : Nat} {bh f : Str} {ft : String} {fmtT : FmtTitle}
    {nh : Str} {sec i : Nat} {sd : SourceGroup} {st : PState} :
    CInv (pNewGroup m bh f ft fmtT nh sec i sd st) := by
  unfold pNewGroup
  exact cinv_pAppendRaw (cinv_pFoldAppend cinv_pTryAppend)

theorem ctrace_pNewGroup {m : Nat} {bh f : Str} {ft : String} {fmtT : FmtTitle}
    {nh : Str} {sec i : Nat} {sd : SourceGroup} {st : PState} (hcinv : CInv st) :
    ctrace (pNewGroup m bh f ft fmtT nh sec i sd st) =
      ctrace st ++ ⟨PTag.unitPiece sec i, newUnitStr ft fmtT sd⟩ ::
        newLinePieces ft fmtT sec i sd.titles := by
  unfold pNewGroup
  rw [ctrace_pAppendRaw, ctrace_pFoldAppend (by simp) cinv_pTryAppend,
    ctrace_pTryAppend (by simp) hcinv]
  simp [filter_newLinePieces, isContent, List.filter_cons]

theorem cinv_pNewGroups {m : Nat} {bh f : Str} {ft : String} {fmtT : FmtTitle}
    {nh : Str} {sec : Nat} {l : List (Nat × SourceGroup)} {st : PState}
    (h : CInv st) : CInv (pNewGroups m bh f ft fmtT nh sec l st) := by
  induction l generalizing st with
  | nil => exact h
  | cons a rest ih =>
      obtain ⟨i, sd⟩ := a
      exact ih cinv_pNewGroup

theorem ctrace_pNewGroups {m : Nat} {bh f : Str} {ft : String} {fmtT : FmtTitle}
    {nh : Str} {sec : Nat} {l : List (Nat × SourceGroup)} {st : PState}
    (hcinv : CInv st) :
    ctrace (pNewGroups m bh f ft fmtT nh sec l st) =
      ctrace st ++ (l.map (fun q =>
        (⟨PTag.unitPiece sec q.1, newUnitStr ft fmtT q.2⟩ : Piece) ::
        newLinePieces ft fmtT sec q.1 q.2.titles)).flatten := by
  induction l generalizing st with
  | nil => simp [pNewGroups]
  | cons a rest ih =>
      obtain ⟨i, sd⟩ := a
      show ctrace (pNewGroups m bh f ft fmtT nh sec rest
        (pNewGroup m bh f ft fmtT nh sec i sd st)) = _
      rw [ih cinv_pNewGroup, ctrace_pNewGroup hcinv]
      simp

theorem cinv_pProcessNewSection {m : Nat} {bh f : Str} {ft : String} {fsep : Str}
    {fmtT : FmtTitle} {tnc sec : Nat} {groups : List SourceGroup} {st : PState}
    (h : CInv st) :
    CInv (pProcessNewSection m bh f ft fsep fmtT tnc sec groups st) := by
  unfold pProcessNewSection
  cases groups with
  | nil => exact h
  | cons g rest => exact cinv_pNewGroups cinv_pTryAppend

theorem ctrace_pProcessNewSection {m : Nat} {bh f : Str} {ft : String} {fsep : Str}
    {fmtT : FmtTitle} {tnc sec : Nat} {groups : List SourceGroup} {st : PState}
    (hcinv : CInv st) :
    ctrace (pProcessNewSection m bh f ft fsep fmtT tnc sec groups st) =
      ctrace st ++ newContentPieces ft fmtT sec groups := by
  unfold pProcessNewSection
  cases groups with
  | nil => simp [newContentPieces]
  | cons g rest =>
      rw [ctrace_pNewGroups cinv_pTryAppend, ctrace_pTryAppend (by simp) hcinv]
      simp [newContentPieces]

theorem cinv_pRssNewGroup {m : Nat} {bh f : Str} {ft : String} {fmtT : FmtTitle}
    {nh : Str} {sec i : Nat} {g : Str × List TitleEntry} {st : PState} :
    CInv (pRssNewGroup m bh f ft fmtT nh sec i g st) := by
  unfold pRssNewGroup
  exact cinv_pAppendRaw (cinv_pFoldAppend cinv_pTryAppend)

theorem ctrace_pRssNewGroup {m : Nat} {bh f : Str} {ft : String} {fmtT : FmtTitle}
    {nh : Str} {sec i : Nat} {g : Str × List TitleEntry} {st : PState}
    (hcinv : CInv st) :
    ctrace (pRssNewGroup m bh f ft fmtT nh sec i g st) =
      ctrace st ++ ⟨PTag.unitPiece sec i, rssNewUnitStr ft fmtT g⟩ ::
        rssNewLinePieces ft fmtT sec i g.2 := by
  unfold pRssNewGroup
  rw [ctrace_pAppendRaw, ctrace_pFoldAppend (by simp) cinv_pTryAppend,
    ctrace_pTryAppend (by simp) hcinv]
  simp [filter_rssNewLinePieces, isContent, List.filter_cons]

theorem cinv_pRssNewGroups {m : Nat} {bh f : Str} {ft : String} {fmtT : FmtTitle}
    {nh : Str} {sec : Nat} {l : List (Nat × (Str × List TitleEntry))} {st : PState}
    (h : CInv st) : CInv (pRssNewGroups m bh f ft fmtT nh sec l st) := by
  induction l generalizing st with
  | nil => exact h
  | cons a rest ih =>
      obtain ⟨i, g⟩ := a
      exact ih cinv_pRssNewGroup

theorem ctrace_pRssNewGroups {m : Nat} {bh f : Str} {ft : String} {fmtT : FmtTitle}
    {nh : Str} {sec : Nat} {l : List (Nat × (Str × List TitleEntry))} {st : PState}
    (hcinv : CInv st) :
    ctrace (pRssNewGroups m bh f ft fmtT nh sec l st) =
      ctrace st ++ (l.map (fun q =>
        (⟨PTag.unitPiece sec q.1, rssNewUnitStr ft fmtT q.2⟩ : Piece) ::
        rssNewLinePieces ft fmtT sec q.1 q.2.2)).flatten := by
  induction l generalizing st with
  | nil => simp [pRssNewGroups]
  | cons a rest ih =>
      obtain ⟨i, g⟩ := a
      show ctrace (pRssNewGroups m bh f ft fmtT nh sec rest
        (pRssNewGroup m bh f ft fmtT nh sec i g st)) = _
      rw [ih cinv_pRssNewGroup, ctrace_pRssNewGroup hcinv]
      simp

theorem cinv_pProcessRssNewSection {m : Nat} {bh f : Str} {ft : String} {fsep : Str}
    {fmtT : FmtTitle} {sec : Nat} {rssNewStats : List WordStat} {st : PState}
    (h : CInv st) :
    CInv (pProcessRssNewSection m bh f ft fsep fmtT sec rssNewStats st) := by
  unfold pProcessRssNewSection
  cases rssNewStats with
  | nil => exact h
  | cons s ss =>
      cases hg : groupBySource (s :: ss) with
      | nil => exact h
      | cons g gs => exact cinv_pRssNewGroups cinv_pTryAppend

theorem ctrace_pProcessRssNewSection {m : Nat} {bh f : Str} {ft : String} {fsep : Str}
    {fmtT : FmtTitle} {sec : Nat} {rssNewStats : List WordStat} {st : PState}
    (hcinv : CInv st) :
    ctrace (pProcessRssNewSection m bh f ft fsep fmtT sec rssNewStats st) =
      ctrace st ++ rssNewContentPieces ft fmtT sec rssNewStats := by
  unfold pProcessRssNewSection
  cases rssNewStats with
  | nil => simp [rssNewContentPieces, groupBySource]
  | cons s ss =>
      cases hg : groupBySource (s :: ss) with
      | nil => simp [rssNewContentPieces, hg]
      | cons g gs =>
          rw [ctrace_pRssNewGroups cinv_pTryAppend, ctrace_pTryAppend (by simp) hcinv]
          simp [rssNewContentPieces, hg]

theorem cinv_pProcessFailedSection {m : Nat} {bh f : Str} {ft : String} {fsep : Str}
    {failed : List Str} {st : PState} (h : CInv st) :
    CInv (pProcessFailedSection m bh f ft fsep failed st) := by
  unfold pProcessFailedSection
  cases failed with
  | nil => exact h
  | cons i rest => exact cinv_pFoldAppend cinv_pTryAppend

theorem ctrace_pProcessFailedSection {m : Nat} {bh f : Str} {ft : String} {fsep : Str}
    {failed : List Str} {st : PState} (hcinv : CInv st) :
    ctrace (pProcessFailedSection m bh f ft fsep failed st) =
      ctrace st ++ failLinePieces ft failed := by
  unfold pProcessFailedSection
  cases failed with
  | nil => simp [failLinePieces]
  | cons i rest =>
      rw [ctrace_pFoldAppend (by simp) cinv_pTryAppend,
        ctrace_pTryAppend (by simp) hcinv]
      simp [filter_failLinePieces]

theorem pFinalize_trace {f : Str} {st : PState} (hcinv : CInv st) :
    ((pFinalize f st).flatten).filter isContent = ctrace st := by
  unfold pFinalize ctrace
  by_cases hc : st.hasContent = true
  · simp [hc, List.filter_append, List.flatten_append]
  · have hc0 : st.hasContent = false := by simpa using hc
    simp [hc0, List.filter_append, hcinv hc0]

theorem ctrace_init (bh : Str) : ctrace ⟨[pf bh], false, []⟩ = [] := by
  simp [ctrace]

theorem cinv_init (bh : Str) : CInv ⟨[pf bh], false, []⟩ := by
  intro h
  simp

theorem ctrace_main {m : Nat} {bh f : Str} {ft : String} {fsep : Str} {fmtT : FmtTitle}
    {sh rsh : Str} {tnc : Nat} {stats : List WordStat} {groups : List SourceGroup}
    {failed : List Str} {rssItems rssNewItems : List WordStat} {rev : Bool}
    {st : PState} (hcinv : CInv st) :
    ((pFinalize f (pProcessFailedSection m bh f ft fsep failed
        (if rev then
          (if rssItems ≠ [] then
            pProcessStatsLike m bh f ft fsep fmtT rsh 1 rssItems
              (pProcessStatsLike m bh f ft fsep fmtT sh 0 stats
                (if rssNewItems ≠ [] then
                  pProcessRssNewSection m bh f ft fsep fmtT 3 rssNewItems
                    (pProcessNewSection m bh f ft fsep fmtT tnc 2 groups st)
                else pProcessNewSection m bh f ft fsep fmtT tnc 2 groups st))
          else
            pProcessStatsLike m bh f ft fsep fmtT sh 0 stats
              (if rssNewItems ≠ [] then
                pProcessRssNewSection m bh f ft fsep fmtT 3 rssNewItems
                  (pProcessNewSection m bh f ft fsep fmtT tnc 2 groups st)
              else pProcessNewSection m bh f ft fsep fmtT tnc 2 groups st))
        else
          (if rssNewItems ≠ [] then
            pProcessRssNewSection m bh f ft fsep fmtT 3 rssNewItems
              (pProcessNewSection m bh f ft fsep fmtT tnc 2 groups
                (if rssItems ≠ [] then
                  pProcessStatsLike m bh f ft fsep fmtT rsh 1 rssItems
                    (pProcessStatsLike m bh f ft fsep fmtT sh 0 stats st)
                else pProcessStatsLike m bh f ft fsep fmtT sh 0 stats st))
          else
            pProcessNewSection m bh f ft fsep fmtT tnc 2 groups
              (if rssItems ≠ [] then
                pProcessStatsLike m bh f ft fsep fmtT rsh 1 rssItems
                  (pProcessStatsLike m bh f ft fsep fmtT sh 0 stats st)
              else pProcessStatsLike m bh f ft fsep fmtT sh 0 stats st))))).flatten).filter
        isContent =
      ctrace st ++
        ((if rev then
          newContentPieces ft fmtT 2 groups ++ rssNewContentPieces ft fmtT 3 rssNewItems ++
          statContentPieces ft fmtT 0 stats ++ statContentPieces ft fmtT 1 rssItems
        else
          statContentPieces ft fmtT 0 stats ++ statContentPieces ft fmtT 1 rssItems ++
          newContentPieces ft fmtT 2 groups ++ rssNewContentPieces ft fmtT 3 rssNewItems) ++
        failLinePieces ft failed) := by
  cases rev with
  | false =>
      by_cases h1 : rssItems = []
      · by_cases h2 : rssNewItems = []
        · simp only [h1, h2, ne_eq, not_true_eq_false, if_false, ite_false,
            Bool.false_eq_true]
          rw [pFinalize_trace (cinv_pProcessFailedSection (cinv_pProcessNewSection
              (cinv_pProcessStatsLike hcinv))),
            ctrace_pProcessFailedSection (cinv_pProcessNewSection
              (cinv_pProcessStatsLike hcinv)),
            ctrace_pProcessNewSection (cinv_pProcessStatsLike hcinv),
            ctrace_pProcessStatsLike hcinv]
          simp [statContentPieces, rssNewContentPieces, newContentPieces, groupBySource,
            List.append_assoc]
        · simp only [h1, h2, ne_eq, not_true_eq_false, not_false_eq_true, if_false,
            if_true, ite_false, ite_true, Bool.false_eq_true]
          rw [pFinalize_trace (cinv_pProcessFailedSection (cinv_pProcessRssNewSection
              (cinv_pProcessNewSection (cinv_pProcessStatsLike hcinv)))),
            ctrace_pProcessFailedSection (cinv_pProcessRssNewSection
              (cinv_pProcessNewSection (cinv_pProcessStatsLike hcinv))),
            ctrace_pProcessRssNewSection (cinv_pProcessNewSection
              (cinv_pProcessStatsLike hcinv)),
            ctrace_pProcessNewSection (cinv_pProcessStatsLike hcinv),
            ctrace_pProcessStatsLike hcinv]
          simp [statContentPieces, rssNewContentPieces, newContentPieces, groupBySource,
            List.append_assoc]
      · by_cases h2 : rssNewItems = []
        · simp only [h1, h2, ne_eq, not_true_eq_false, not_false_eq_true, if_false,
            if_true, ite_false, ite_true, Bool.false_eq_true]
          rw [pFinalize_trace (cinv_pProcessFailedSection (cinv_pProcessNewSection
              (cinv_pProcessStatsLike (cinv_pProcessStatsLike hcinv)))),
            ctrace_pProcessFailedSection (cinv_pProcessNewSection
              (cinv_pProcessStatsLike (cinv_pProcessStatsLike hcinv))),
            ctrace_pProcessNewSection (cinv_pProcessStatsLike
              (cinv_pProcessStatsLike hcinv)),
            ctrace_pProcessStatsLike (cinv_pProcessStatsLike hcinv),
            ctrace_pProcessStatsLike hcinv]
          simp [statContentPieces, rssNewContentPieces, newContentPieces, groupBySource,
            List.append_assoc]
        · simp only [h1, h2, ne_eq, not_true_eq_false, not_false_eq_true, if_false,
            if_true, ite_false, ite_true, Bool.false_eq_true]
          rw [pFinalize_trace (cinv_pProcessFailedSection (cinv_pProcessRssNewSection
              (cinv_pProcessNewSection (cinv_pProcessStatsLike
                (cinv_pProcessStatsLike hcinv))))),
            ctrace_pProcessFailedSection (cinv_pProcessRssNewSection
              (cinv_pProcessNewSection (cinv_pProcessStatsLike
                (cinv_pProcessStatsLike hcinv)))),
            ctrace_pProcessRssNewSection (cinv_pProcessNewSection
              (cinv_pProcessStatsLike (cinv_pProcessStatsLike hcinv))),
            ctrace_pProcessNewSection (cinv_pProcessStatsLike
              (cinv_pProcessStatsLike hcinv)),
            ctrace_pProcessStatsLike (cinv_pProcessStatsLike hcinv),
            ctrace_pProcessStatsLike hcinv]
          simp [statContentPieces, rssNewContentPieces, newContentPieces, groupBySource,
            List.append_assoc]
  | true =>
      by_cases h1 : rssItems = []
      · by_cases h2 : rssNewItems = []
        · simp only [h1, h2, ne_eq, not_true_eq_false, if_false, if_true, ite_false,
            ite_true]
          rw [pFinalize_trace (cinv_pProcessFailedSection (cinv_pProcessStatsLike
              (cinv_pProcessNewSection hcinv))),
            ctrace_pProcessFailedSection (cinv_pProcessStatsLike
              (cinv_pProcessNewSection hcinv)),
            ctrace_pProcessStatsLike (cinv_pProcessNewSection hcinv),
            ctrace_pProcessNewSection hcinv]
          simp [statContentPieces, rssNewContentPieces, newContentPieces, groupBySource,
            List.append_assoc]
        · simp only [h1, h2, ne_eq, not_true_eq_false, not_false_eq_true, if_false,
            if_true, ite_false, ite_true]
          rw [pFinalize_trace (cinv_pProcessFailedSection (cinv_pProcessStatsLike
              (cinv_pProcessRssNewSection (cinv_pProcessNewSection hcinv)))),
            ctrace_pProcessFailedSection (cinv_pProcessStatsLike
              (cinv_pProcessRssNewSection (cinv_pProcessNewSection hcinv))),
            ctrace_pProcessStatsLike (cinv_pProcessRssNewSection
              (cinv_pProcessNewSection hcinv)),
            ctrace_pProcessRssNewSection (cinv_pProcessNewSection hcinv),
            ctrace_pProcessNewSection hcinv]
          simp [statContentPieces, rssNewContentPieces, newContentPieces, groupBySource,
            List.append_assoc]
      · by_cases h2 : rssNewItems = []
        · simp only [h1, h2, ne_eq, not_true_eq_false, not_false_eq_true, if_false,
            if_true, ite_false, ite_true]
          rw [pFinalize_trace (cinv_pProcessFailedSection (cinv_pProcessStatsLike
              (cinv_pProcessStatsLike (cinv_pProcessNewSection hcinv)))),
            ctrace_pProcessFailedSection (cinv_pProcessStatsLike
              (cinv_pProcessStatsLike (cinv_pProcessNewSection hcinv))),
            ctrace_pProcessStatsLike (cinv_pProcessStatsLike
              (cinv_pProcessNewSection hcinv)),
            ctrace_pProcessStatsLike (cinv_pProcessNewSection hcinv),
            ctrace_pProcessNewSection hcinv]
          simp [statContentPieces, rssNewContentPieces, newContentPieces, groupBySource,
            List.append_assoc]
        · simp only [h1, h2, ne_eq, not_true_eq_false, not_false_eq_true, if_false,
            if_true, ite_false, ite_true]
          rw [pFinalize_trace (cinv_pProcessFailedSection (cinv_pProcessStatsLike
              (cinv_pProcessStatsLike (cinv_pProcessRssNewSection
                (cinv_pProcessNewSection hcinv))))),
            ctrace_pProcessFailedSection (cinv_pProcessStatsLike
              (cinv_pProcessStatsLike (cinv_pProcessRssNewSection
                (cinv_pProcessNewSection hcinv)))),
            ctrace_pProcessStatsLike (cinv_pProcessStatsLike
              (cinv_pProcessRssNewSection (cinv_pProcessNewSection hcinv))),
            ctrace_pProcessStatsLike (cinv_pProcessRssNewSection
              (cinv_pProcessNewSection hcinv)),
            ctrace_pProcessRssNewSection (cinv_pProcessNewSection hcinv),
            ctrace_pProcessNewSection hcinv]
          simp [statContentPieces, rssNewContentPieces, newContentPieces, groupBySource,
            List.append_assoc]

theorem pSplit_trace (fmtT : FmtTitle) (report : ReportData) (ft : String)
    (upd : Option UpdateInfo) (mbo : Option Nat) (mode : String)
    (bs : List (String × Nat)) (fsep : Str) (rev : Bool) (now : Str)
    (rssItems rssNewItems : List WordStat) :
    ((pSplit fmtT report ft upd mbo mode bs fsep rev now rssItems
        rssNewItems).flatten).filter isContent =
      expectedContent ft fmtT report rssItems rssNewItems rev := by
  unfold pSplit expectedContent
  cases hs : report.stats <;> cases hn : report.newTitles <;> cases hf : report.failedIds <;>
    first
    | rfl
    | exact ctrace_main (cinv_init _)

/-- C4: re-joining all batches returned by `split_content_into_batches` in
output order reproduces exactly the piece decomposition (`pSplit`): every
batch is the concatenation of its pieces, and the content pieces of all
batches in output order — one unit piece per WordStat / SourceGroup /
source-map group plus one item piece per further title line and one piece
per failed id — equal `expectedContent`, a list that enumerates every
content unit of the input exactly once, in input order, independently of
the byte budget.  No content unit is dropped, duplicated or reordered by
segmentation. -/
theorem c4_reconstruction (fmtT : FmtTitle) (report : ReportData) (ft : String)
    (upd : Option UpdateInfo) (mbo : Option Nat) (mode : String)
    (bs : List (String × Nat)) (fsep : Str) (rev : Bool) (now : Str)
    (rssItems rssNewItems : List WordStat) :
    (pSplit fmtT report ft upd mbo mode bs fsep rev now rssItems
        rssNewItems).map pjoin =
      splitContentIntoBatches fmtT report ft upd mbo mode bs fsep rev now
        rssItems rssNewItems ∧
    ((pSplit fmtT report ft upd mbo mode bs fsep rev now rssItems
        rssNewItems).flatten).filter isContent =
      expectedContent ft fmtT report rssItems rssNewItems rev :=
  ⟨pSplit_map_pjoin fmtT report ft upd mbo mode bs fsep rev now rssItems rssNewItems,
   pSplit_trace fmtT report ft upd mbo mode bs fsep rev now rssItems rssNewItems⟩
